import Mathlib

/-!
# Intervention System: the in-memory store and the request handlers

A shallow embedding of `src/backend/lib/db.js` (the `memory` fallback that is
used when `DATABASE_URL` is unset) and of the four request handlers of
`src/backend/index.js`.

Modelling decisions, each taken from the source:

* A JavaScript `Map` iterates in insertion order and `set` on a key that is
  already present keeps the position of that key.  A map is therefore a list
  of records in insertion order, keyed by the record's `id` field (the source
  documents both maps as `id -> { id, ... }`).
* Records are mutated in place and then written back with `set(x.id, x)`; both
  together are one replacement at the key `x.id`.
* `Date.now()` is an input of the request (`Env`).
* Student ids and tasks are strings; the empty string is the falsy one.
* `intervention_id` is `none` when it is missing or falsy, and `some k` when it
  is truthy and `Number(intervention_id)` is `k`.  Keys of the intervention map
  are the values of the counter `interventionAutoId`, which starts at 1.
* The SQL branch of `db.js` is embedded next to the memory branch, each query
  read as a relational operation on the same three tables.
* Simultaneous requests are requests in flight that take turns at their awaited
  store operations (`interleave`).
-/

namespace InterventionSystem

/-! ## JavaScript values -/

/-- A JavaScript number: a finite value (every double is a rational), the two
infinities, or NaN. -/
inductive JSNumber where
  | finite (q : ℚ)
  | posInf
  | negInf
  | nan
  deriving DecidableEq

/-- The comparison `x > k` of the source, for a finite literal `k`. -/
def JSNumber.gt (x : JSNumber) (k : ℚ) : Bool :=
  match x with
  | .finite q => decide (k < q)
  | .posInf => true
  | .negInf => false
  | .nan => false

/-- A JSON body field before validation. -/
inductive JSValue where
  | undefined
  | null
  | boolean (b : Bool)
  | number (n : JSNumber)
  | string (s : String)
  deriving DecidableEq

/-! ## The three tables -/

/-- Row of `memory.students`: `{ id, status }`. -/
structure Student where
  id : String
  status : String
  deriving DecidableEq

/-- Row of `memory.interventions`:
`{ id, student_id, task, status, created_at, completed_at }`. -/
structure Intervention where
  id : Nat
  student_id : String
  task : Option String
  status : String
  created_at : Nat
  completed_at : Option Nat
  deriving DecidableEq

/-- Entry of `memory.daily_logs`. -/
structure DailyLog where
  student_id : String
  quiz_score : JSNumber
  focus_minutes : JSNumber
  status : String
  ts : Nat
  deriving DecidableEq

/-- The module state of `db.js` in memory mode: the three tables and the
counter `interventionAutoId`. -/
structure Memory where
  students : List Student
  interventions : List Intervention
  daily_logs : List DailyLog
  interventionAutoId : Nat
  deriving DecidableEq

/-- The state at module load: empty tables, `interventionAutoId = 1`. -/
def Memory.empty : Memory :=
  { students := [], interventions := [], daily_logs := [], interventionAutoId := 1 }

/-! ## `Map` primitives -/

/-- `Map.prototype.set(key v, v)`: replaces the value at an existing key, in
place, and appends a new key at the end. -/
def mapSet {α κ : Type} [DecidableEq κ] (key : α → κ) : List α → α → List α
  | [], v => [v]
  | x :: xs, v => if key x = key v then v :: xs else x :: mapSet key xs v

/-- `Map.prototype.get(k)`. -/
def mapGet {α κ : Type} [DecidableEq κ] (key : α → κ) (m : List α) (k : κ) : Option α :=
  m.find? (fun x => decide (key x = k))

/-- `Map.prototype.has(k)`. -/
def mapHas {α κ : Type} [DecidableEq κ] (key : α → κ) (m : List α) (k : κ) : Bool :=
  m.any (fun x => decide (key x = k))

/-- The loop condition shared by `createOrGetPendingIntervention`,
`getActiveIntervention` and `completeActiveIntervention`:
`i.student_id === student_id && (i.status === 'pending' || i.status === 'assigned')`. -/
def isActiveFor (student_id : String) (i : Intervention) : Bool :=
  decide (i.student_id = student_id) &&
    (decide (i.status = "pending") || decide (i.status = "assigned"))

/-! ## `db.js`, memory mode -/

/-- `ensureStudent(student_id)`. -/
def ensureStudent (m : Memory) (student_id : String) : Memory :=
  if mapHas Student.id m.students student_id then m
  else { m with students := mapSet Student.id m.students { id := student_id, status := "On Track" } }

/-- `getStudent(student_id)`. -/
def getStudent (m : Memory) (student_id : String) : Option Student :=
  mapGet Student.id m.students student_id

/-- `updateStudentStatus(student_id, status)`. -/
def updateStudentStatus (m : Memory) (student_id : String) (status : String) : Memory :=
  let s : Student :=
    match mapGet Student.id m.students student_id with
    | some s => s
    | none => { id := student_id, status := "" }
  { m with students := mapSet Student.id m.students { s with status := status } }

/-- `insertDailyLog({ student_id, quiz_score, focus_minutes })`, with `now` the
reading of `Date.now()`. -/
def insertDailyLog (m : Memory) (student_id : String) (quiz_score focus_minutes : JSNumber)
    (now : Nat) : Memory :=
  { m with daily_logs := m.daily_logs ++
      [{ student_id := student_id, quiz_score := quiz_score, focus_minutes := focus_minutes,
         status := if quiz_score.gt 7 && focus_minutes.gt 60 then "success" else "failed",
         ts := now }] }

/-- `createOrGetPendingIntervention(student_id)`. -/
def createOrGetPendingIntervention (m : Memory) (student_id : String) (now : Nat) :
    Memory × Intervention :=
  match m.interventions.find? (isActiveFor student_id) with
  | some i => (m, i)
  | none =>
    let id := m.interventionAutoId
    let newInt : Intervention :=
      { id := id, student_id := student_id, task := none, status := "pending",
        created_at := now, completed_at := none }
    ({ m with interventionAutoId := id + 1,
              interventions := mapSet Intervention.id m.interventions newInt }, newInt)

/-- `assignInterventionTask({ student_id, intervention_id, task })`. -/
def assignInterventionTask (m : Memory) (student_id : String) (intervention_id : Option Nat)
    (task : String) (now : Nat) : Memory × Intervention :=
  let found : Option Intervention :=
    match intervention_id with
    | some k => mapGet Intervention.id m.interventions k
    | none => none
  let r : Memory × Intervention :=
    match found with
    | some t => (m, t)
    | none => createOrGetPendingIntervention m student_id now
  let target : Intervention := { r.2 with task := some task, status := "assigned" }
  ({ r.1 with interventions := mapSet Intervention.id r.1.interventions target }, target)

/-- `getActiveIntervention(student_id)`. -/
def getActiveIntervention (m : Memory) (student_id : String) : Option Intervention :=
  m.interventions.find? (isActiveFor student_id)

/-- `completeActiveIntervention(student_id)`. -/
def completeActiveIntervention (m : Memory) (student_id : String) (now : Nat) :
    Memory × Option Intervention :=
  match m.interventions.find? (isActiveFor student_id) with
  | some i =>
    let done : Intervention := { i with status := "completed", completed_at := some now }
    ({ m with interventions := mapSet Intervention.id m.interventions done }, some done)
  | none => (m, none)

/-! ## `index.js`: the request handlers -/

/-- What the outbound call of the check-in handler does: `N8N_WEBHOOK_URL` is
empty, `fetch` resolves, or `fetch` throws. -/
inductive Webhook where
  | notConfigured
  | succeeds
  | throws
  deriving DecidableEq

/-- The environment of one request: the readings of `Date.now()` (one in
`insertDailyLog`, one in the intervention operation) and the webhook. -/
structure Env where
  logNow : Nat
  opNow : Nat
  webhook : Webhook
  deriving DecidableEq

/-- The HTTP responses of the handlers. -/
inductive Response where
  | invalidPayload
  | notFound
  | serverError
  | checkin (status : String)
  | studentStatus (student_id : String) (status : String) (task : Option String)
  | assigned (intervention : Intervention)
  | completed (status : String)
  deriving DecidableEq

/-- Body of `POST /daily-checkin`. -/
structure CheckinBody where
  student_id : String
  quiz_score : JSValue
  focus_minutes : JSValue
  deriving DecidableEq

/-- Body of `POST /assign-intervention`. -/
structure AssignBody where
  student_id : String
  intervention_id : Option Nat
  task : String
  deriving DecidableEq

/-- Body of `POST /mark-complete`. -/
structure CompleteBody where
  student_id : String
  deriving DecidableEq

/-- `GET /student/:id/status`. -/
def getStatus (m : Memory) (id : String) : Response :=
  match getStudent m id with
  | none => .notFound
  | some student =>
    .studentStatus id student.status
      (match getActiveIntervention m id with
       | some intervention => intervention.task
       | none => none)

/-- `POST /daily-checkin`. -/
def dailyCheckin (env : Env) (m : Memory) (body : CheckinBody) : Memory × Response :=
  match body.quiz_score, body.focus_minutes with
  | .number quiz_score, .number focus_minutes =>
    if body.student_id = "" then (m, .invalidPayload)
    else
      let m1 := ensureStudent m body.student_id
      let m2 := insertDailyLog m1 body.student_id quiz_score focus_minutes env.logNow
      if quiz_score.gt 7 && focus_minutes.gt 60 then
        (updateStudentStatus m2 body.student_id "On Track", .checkin "On Track")
      else
        let m3 := updateStudentStatus m2 body.student_id "Needs Intervention"
        let r := createOrGetPendingIntervention m3 body.student_id env.opNow
        match env.webhook with
        | .notConfigured => (r.1, .checkin "Pending Mentor Review")
        | .succeeds => (r.1, .checkin "Pending Mentor Review")
        | .throws => (r.1, .checkin "Pending Mentor Review")
  | _, _ => (m, .invalidPayload)

/-- `POST /assign-intervention`. -/
def assignIntervention (env : Env) (m : Memory) (body : AssignBody) : Memory × Response :=
  if body.student_id = "" ∨ body.task = "" then (m, .invalidPayload)
  else
    let m1 := ensureStudent m body.student_id
    let r := assignInterventionTask m1 body.student_id body.intervention_id body.task env.opNow
    (updateStudentStatus r.1 body.student_id "Remedial", .assigned r.2)

/-- `POST /mark-complete`. -/
def markComplete (env : Env) (m : Memory) (body : CompleteBody) : Memory × Response :=
  if body.student_id = "" then (m, .invalidPayload)
  else
    let m1 := ensureStudent m body.student_id
    let r := completeActiveIntervention m1 body.student_id env.opNow
    (updateStudentStatus r.1 body.student_id "On Track", .completed "On Track")

/-- A request to one of the three state-changing handlers. -/
inductive Request where
  | checkin (env : Env) (body : CheckinBody)
  | assign (env : Env) (body : AssignBody)
  | complete (env : Env) (body : CompleteBody)

/-- The store after a request. -/
def step (m : Memory) : Request → Memory
  | .checkin env body => (dailyCheckin env m body).1
  | .assign env body => (assignIntervention env m body).1
  | .complete env body => (markComplete env m body).1

/-- The store after a sequence of requests, served one after the other. -/
def run (m : Memory) (rs : List Request) : Memory :=
  rs.foldl step m

/-- The number of active (pending or assigned) interventions of a student. -/
def activeCount (m : Memory) (student_id : String) : Nat :=
  m.interventions.countP (isActiveFor student_id)

/-- A check-in of a student with scores of number type, as a request. -/
def checkinOf (student_id : String) (c : Env × JSNumber × JSNumber) : Request :=
  .checkin c.1 ⟨student_id, .number c.2.1, .number c.2.2⟩

/-- The check-in fails the rule `quiz_score > 7 && focus_minutes > 60`. -/
def failing (c : Env × JSNumber × JSNumber) : Bool :=
  !(c.2.1.gt 7 && c.2.2.gt 60)

/-- The record that `createOrGetPendingIntervention` creates. -/
def newIntervention (m : Memory) (student_id : String) (now : Nat) : Intervention :=
  { id := m.interventionAutoId, student_id := student_id, task := none, status := "pending",
    created_at := now, completed_at := none }

/-- The request passes the validation of its handler. -/
def Request.valid : Request → Bool
  | .checkin _ body =>
    match body.quiz_score, body.focus_minutes with
    | .number _, .number _ => decide (body.student_id ≠ "")
    | _, _ => false
  | .assign _ body => decide (body.student_id ≠ "") && decide (body.task ≠ "")
  | .complete _ body => decide (body.student_id ≠ "")

/-- An assign request whose `intervention_id` names a stored intervention that
is not active (not pending, not assigned) while the student of that
intervention has an active one: serving it makes a second intervention of that
student active. -/
def activatesSecond (m : Memory) : Request → Bool
  | .assign _ body =>
    match body.intervention_id with
    | none => false
    | some k =>
      match mapGet Intervention.id m.interventions k with
      | none => false
      | some t => !(isActiveFor t.student_id t) && decide (activeCount m t.student_id ≠ 0)
  | _ => false

/-- No request of the sequence, served in order from `m`, is an
`activatesSecond` request in the store it is served in. -/
def neverActivatesSecond : Memory → List Request → Bool
  | _, [] => true
  | m, r :: rs => !(activatesSecond m r) && neverActivatesSecond (step m r) rs

/-- Keys of the intervention map are distinct and below the counter
`interventionAutoId`. -/
def KeysFresh (m : Memory) : Prop :=
  (m.interventions.map Intervention.id).Nodup ∧
    ∀ i ∈ m.interventions, i.id < m.interventionAutoId

/-- At most one active intervention per student. -/
def AtMostOneActive (m : Memory) : Prop :=
  ∀ student_id, activeCount m student_id ≤ 1

/-- Four valid requests of one student: a failing check-in, a mark-complete, a
second failing check-in, and an assign that names the first (completed)
intervention by its id. -/
def reactivatingRequests : List Request :=
  [ .checkin ⟨10, 11, .notConfigured⟩ ⟨"s1", .number (.finite 5), .number (.finite 30)⟩,
    .complete ⟨20, 21, .notConfigured⟩ ⟨"s1"⟩,
    .checkin ⟨30, 31, .notConfigured⟩ ⟨"s1", .number (.finite 5), .number (.finite 30)⟩,
    .assign ⟨40, 41, .notConfigured⟩ ⟨"s1", some 1, "A"⟩ ]

/-- Four requests of one student in which the assign names the pending
intervention by its id. -/
def assignByIdRequests : List Request :=
  [ .checkin ⟨10, 11, .succeeds⟩ ⟨"s1", .number (.finite 5), .number (.finite 30)⟩,
    .assign ⟨20, 21, .succeeds⟩ ⟨"s1", some 1, "Read ch.3"⟩,
    .complete ⟨30, 31, .succeeds⟩ ⟨"s1"⟩,
    .checkin ⟨40, 41, .succeeds⟩ ⟨"s1", .number (.finite 5), .number (.finite 30)⟩ ]

/-- The `intervention_id` of an assign request for `student_id` is missing,
matches no stored intervention, or matches an intervention of that student
before which the map holds no active intervention of the student. -/
def targetsStudent (m : Memory) (student_id : String) : Option Nat → Bool
  | none => true
  | some k =>
    match mapGet Intervention.id m.interventions k with
    | none => true
    | some t =>
      decide (t.student_id = student_id) &&
        (m.interventions.takeWhile (fun x => decide (x.id ≠ k))).all
          (fun x => !(isActiveFor student_id x))

/-- The `intervention_id` of an assign request for `student_id` is missing, or
it matches a stored intervention of that student and no other intervention of
the student is active (every active one carries that id). -/
def ownTarget (m : Memory) (student_id : String) : Option Nat → Bool
  | none => true
  | some k =>
    match mapGet Intervention.id m.interventions k with
    | none => false
    | some t =>
      decide (t.student_id = student_id) &&
        m.interventions.all (fun x => !(isActiveFor student_id x) || decide (x.id = k))

/-- The store after a failing check-in of student "b" on the empty store: it
holds the pending intervention 1 of "b". -/
def storeOfB : Memory :=
  (dailyCheckin ⟨10, 11, .notConfigured⟩ Memory.empty
    ⟨"b", .number (.finite 5), .number (.finite 30)⟩).1

/-- The store after `reactivatingRequests`: student "s1" has two active
interventions, 1 (created at 11, assigned) and 2 (created at 31, pending). -/
def storeTwoActive : Memory :=
  run Memory.empty reactivatingRequests

/-- The requests of `reactivatingRequests` followed by an assign that names
intervention 2. -/
def twoAssignedRequests : List Request :=
  reactivatingRequests ++ [.assign ⟨50, 51, .notConfigured⟩ ⟨"s1", some 2, "B"⟩]

/-- The store after `twoAssignedRequests`: both interventions of "s1" are
assigned, with tasks "A" and "B". -/
def storeTwoAssigned : Memory :=
  run Memory.empty twoAssignedRequests

/-- The store after one failing check-in of "s1" on the empty store: it holds
the pending intervention 1 of "s1". -/
def storeOnePending : Memory :=
  (dailyCheckin ⟨10, 11, .notConfigured⟩ Memory.empty
    ⟨"s1", .number (.finite 5), .number (.finite 30)⟩).1

/-- The response and the store after a request. -/
def serve (m : Memory) : Request → Memory × Response
  | .checkin env body => dailyCheckin env m body
  | .assign env body => assignIntervention env m body
  | .complete env body => markComplete env m body

/-- The `student_id` of the body of a request. -/
def Request.student_id : Request → String
  | .checkin _ body => body.student_id
  | .assign _ body => body.student_id
  | .complete _ body => body.student_id

/-- The field has `typeof` equal to `'number'`. -/
def JSValue.isNumber : JSValue → Bool
  | .number _ => true
  | _ => false

/-- The end-to-end scenario on the empty store, first request:
check-in("s1", 5, 30). -/
def scenarioCheckin (e1 : Env) : Memory × Response :=
  dailyCheckin e1 Memory.empty ⟨"s1", .number (.finite 5), .number (.finite 30)⟩

/-- The end-to-end scenario, second request: assign("s1", task "Read ch.3")
without `intervention_id`. -/
def scenarioAssign (e1 e2 : Env) : Memory × Response :=
  assignIntervention e2 (scenarioCheckin e1).1 ⟨"s1", none, "Read ch.3"⟩

/-- The end-to-end scenario, third request: mark-complete("s1"). -/
def scenarioComplete (e1 e2 e3 : Env) : Memory × Response :=
  markComplete e3 (scenarioAssign e1 e2).1 ⟨"s1"⟩

/-- An assign request whose `intervention_id` names a stored intervention of
student `b`. -/
def namesInterventionOf (m : Memory) (b : String) : Request → Bool
  | .assign _ body =>
    match body.intervention_id with
    | none => false
    | some k =>
      match mapGet Intervention.id m.interventions k with
      | none => false
      | some t => decide (t.student_id = b)
  | _ => false

/-- An assign request whose `intervention_id` is `k`. -/
def namesIntervention (k : Nat) : Request → Bool
  | .assign _ body => decide (body.intervention_id = some k)
  | _ => false

/-- The interventions of a student, in map order. -/
def interventionsOf (m : Memory) (b : String) : List Intervention :=
  m.interventions.filter (fun i => decide (i.student_id = b))

/-- The store after the first three requests of `reactivatingRequests`:
intervention 1 of "s1" is completed, intervention 2 is pending. -/
def storeOneCompleted : Memory :=
  run Memory.empty (reactivatingRequests.take 3)

/-- Every student whose status is 'Needs Intervention' has an active
intervention. -/
def NeedsHasActive (m : Memory) : Prop :=
  ∀ (id : String) (st : Student), getStudent m id = some st →
    st.status = "Needs Intervention" → 1 ≤ activeCount m id

/-! ## `db.js`, SQL mode

The branch taken when `DATABASE_URL` is set, with each query read as a
relational operation on the same three tables (rows in table order).  The row
type of `students` leaves out `updated_at`, which no query reads. -/

/-- Modelled from the spec: the table schema is not part of the repository.
By §3 of the spec the `id` of an intervention is store-assigned and unique (here
the next value of the sequence `interventionAutoId`), `created_at` is the time
of the insert and `completed_at` is absent until completion.  The uniqueness of
the active intervention, which §4.3 asks of the store, is not read as a table
constraint: no query of `db.js` handles a rejected insert.  This is
`INSERT INTO interventions (student_id, task, status) VALUES (...) RETURNING *`. -/
def sqlInsertIntervention (m : Memory) (student_id : String) (task : Option String)
    (status : String) (now : Nat) : Memory × Intervention :=
  let row : Intervention :=
    { id := m.interventionAutoId, student_id := student_id, task := task, status := status,
      created_at := now, completed_at := none }
  ({ m with interventionAutoId := m.interventionAutoId + 1,
            interventions := m.interventions ++ [row] }, row)

/-- The query
`SELECT * FROM interventions WHERE student_id = $1 AND status IN ('pending','assigned')
ORDER BY created_at DESC LIMIT 1`: a row with the greatest `created_at` among the
active rows of the student.  When several rows share the greatest `created_at`
the database may return any of them; the definition takes the first of them in
table order. -/
def sqlSelectActive (m : Memory) (student_id : String) : Option Intervention :=
  (m.interventions.filter (isActiveFor student_id)).foldl
    (fun best x =>
      match best with
      | none => some x
      | some b => if b.created_at < x.created_at then some x else some b)
    none

/-- `ensureStudent`, SQL branch: `INSERT ... ON CONFLICT (id) DO NOTHING`. -/
def sqlEnsureStudent (m : Memory) (student_id : String) : Memory :=
  if m.students.any (fun s => decide (s.id = student_id)) then m
  else { m with students := m.students ++ [{ id := student_id, status := "On Track" }] }

/-- `getStudent`, SQL branch: `SELECT * FROM students WHERE id = $1`, first row
or null. -/
def sqlGetStudent (m : Memory) (student_id : String) : Option Student :=
  m.students.find? (fun s => decide (s.id = student_id))

/-- `updateStudentStatus`, SQL branch: `UPDATE students SET status = $2 WHERE id = $1`. -/
def sqlUpdateStudentStatus (m : Memory) (student_id : String) (status : String) : Memory :=
  { m with students :=
      m.students.map (fun s => if s.id = student_id then { s with status := status } else s) }

/-- `insertDailyLog`, SQL branch: `INSERT INTO daily_logs ...` with the status
`CASE WHEN $2 > 7 AND $3 > 60 THEN 'success' ELSE 'failed' END`. -/
def sqlInsertDailyLog (m : Memory) (student_id : String) (quiz_score focus_minutes : JSNumber)
    (now : Nat) : Memory :=
  { m with daily_logs := m.daily_logs ++
      [{ student_id := student_id, quiz_score := quiz_score, focus_minutes := focus_minutes,
         status := if quiz_score.gt 7 && focus_minutes.gt 60 then "success" else "failed",
         ts := now }] }

/-- `createOrGetPendingIntervention`, SQL branch: the SELECT, then the INSERT
when the SELECT returned no row. -/
def sqlCreateOrGetPendingIntervention (m : Memory) (student_id : String) (now : Nat) :
    Memory × Intervention :=
  match sqlSelectActive m student_id with
  | some row => (m, row)
  | none => sqlInsertIntervention m student_id none "pending" now

/-- `assignInterventionTask`, SQL branch: with an `intervention_id`,
`UPDATE interventions SET task = $2, status = 'assigned' WHERE id = $1 RETURNING *`;
without one, an INSERT of a new row with status 'assigned'.  The result is the
first returned row (`res[0]`, undefined when the UPDATE matched none). -/
def sqlAssignInterventionTask (m : Memory) (student_id : String)
    (intervention_id : Option Nat) (task : String) (now : Nat) :
    Memory × Option Intervention :=
  match intervention_id with
  | some k =>
    let rows := m.interventions.map
      (fun i => if i.id = k then { i with task := some task, status := "assigned" } else i)
    ({ m with interventions := rows }, rows.find? (fun i => decide (i.id = k)))
  | none =>
    let r := sqlInsertIntervention m student_id (some task) "assigned" now
    (r.1, some r.2)

/-- `getActiveIntervention`, SQL branch. -/
def sqlGetActiveIntervention (m : Memory) (student_id : String) : Option Intervention :=
  sqlSelectActive m student_id

/-- `completeActiveIntervention`, SQL branch:
`UPDATE interventions SET status = 'completed', completed_at = NOW()
WHERE student_id = $1 AND status IN ('pending','assigned') RETURNING *`.  The
second component is the set of returned rows, the updated rows; `RETURNING`
fixes no order among them, and the function returns one of them (`rows[0]`), or
null when there is none. -/
def sqlCompleteActiveIntervention (m : Memory) (student_id : String) (now : Nat) :
    Memory × List Intervention :=
  let done := fun (i : Intervention) =>
    ({ i with status := "completed", completed_at := some now } : Intervention)
  ({ m with interventions :=
      m.interventions.map (fun i => if isActiveFor student_id i then done i else i) },
   (m.interventions.filter (isActiveFor student_id)).map done)

/-! ## Check-ins in flight

A handler runs until its next `await`; between two awaits of one request the
store operations of other requests may run.  A valid check-in awaits, in this
order, `ensureStudent`, `insertDailyLog`, `updateStudentStatus` and, when the
check-in fails, `createOrGetPendingIntervention`.  In memory mode each of these
runs to completion when it is called.  In SQL mode each query is awaited, and
`createOrGetPendingIntervention` is two queries. -/

/-- A valid check-in in flight; `pc` counts the store operations it has done. -/
structure CheckinThread where
  env : Env
  student_id : String
  quiz_score : JSNumber
  focus_minutes : JSNumber
  pc : Nat
  deriving DecidableEq

/-- The next store operation of a check-in in flight, memory mode.  At `pc = 4`
the check-in has no store operation left. -/
def checkinStep (m : Memory) (t : CheckinThread) : Memory × CheckinThread :=
  match t.pc with
  | 0 => (ensureStudent m t.student_id, { t with pc := 1 })
  | 1 => (insertDailyLog m t.student_id t.quiz_score t.focus_minutes t.env.logNow,
          { t with pc := 2 })
  | 2 =>
    if t.quiz_score.gt 7 && t.focus_minutes.gt 60 then
      (updateStudentStatus m t.student_id "On Track", { t with pc := 4 })
    else (updateStudentStatus m t.student_id "Needs Intervention", { t with pc := 3 })
  | 3 => ((createOrGetPendingIntervention m t.student_id t.env.opNow).1, { t with pc := 4 })
  | _ => (m, t)

/-- A valid check-in in flight in SQL mode; `selected` holds the rows of the
SELECT of `createOrGetPendingIntervention` once it has run. -/
structure SqlCheckinThread where
  env : Env
  student_id : String
  quiz_score : JSNumber
  focus_minutes : JSNumber
  pc : Nat
  selected : Option Intervention
  deriving DecidableEq

/-- The next query of a check-in in flight, SQL mode.  At `pc = 5` the check-in
has no query left. -/
def sqlCheckinStep (m : Memory) (t : SqlCheckinThread) : Memory × SqlCheckinThread :=
  match t.pc with
  | 0 => (sqlEnsureStudent m t.student_id, { t with pc := 1 })
  | 1 => (sqlInsertDailyLog m t.student_id t.quiz_score t.focus_minutes t.env.logNow,
          { t with pc := 2 })
  | 2 =>
    if t.quiz_score.gt 7 && t.focus_minutes.gt 60 then
      (sqlUpdateStudentStatus m t.student_id "On Track", { t with pc := 5 })
    else (sqlUpdateStudentStatus m t.student_id "Needs Intervention", { t with pc := 3 })
  | 3 => (m, { t with pc := 4, selected := sqlSelectActive m t.student_id })
  | 4 =>
    match t.selected with
    | some _ => (m, { t with pc := 5 })
    | none =>
      ((sqlInsertIntervention m t.student_id none "pending" t.env.opNow).1, { t with pc := 5 })
  | _ => (m, t)

/-- The store and the requests in flight after a schedule: each entry of the
schedule names the request that runs its next store operation. -/
def interleave {τ : Type} (stepOf : Memory → τ → Memory × τ) :
    Memory → List τ → List Nat → Memory × List τ
  | m, ts, [] => (m, ts)
  | m, ts, i :: is =>
    match ts[i]? with
    | none => interleave stepOf m ts is
    | some t => interleave stepOf (stepOf m t).1 (ts.set i (stepOf m t).2) is

/-- A schedule of two requests that take turns, one store operation each. -/
def raceSchedule : List Nat := [0, 1, 0, 1, 0, 1, 0, 1, 0, 1]

/-- The student has no intervention row, or exactly one and that one is active. -/
def AtMostOneRow (sid : String) (m : Memory) : Prop :=
  interventionsOf m sid = [] ∨
    ∃ v : Intervention, interventionsOf m sid = [v] ∧ isActiveFor sid v = true

/-- The invariant of failing check-ins of one student in flight: the student has
at most one row, and has one as soon as one of the check-ins is through. -/
def OneRowInv (sid : String) (m : Memory) (ts : List CheckinThread) : Prop :=
  AtMostOneRow sid m ∧
    ∀ t ∈ ts, t.student_id = sid ∧ (t.quiz_score.gt 7 && t.focus_minutes.gt 60) = false ∧
      (t.pc = 4 → interventionsOf m sid ≠ [])

/-! ## Map lemmas -/

section MapLemmas

variable {α κ : Type} [DecidableEq κ] (key : α → κ)

theorem mapHas_eq_isSome (m : List α) (k : κ) :
    mapHas key m k = (mapGet key m k).isSome := by
  induction m with
  | nil => rfl
  | cons x xs ih =>
    by_cases h : key x = k
    · simp [mapHas, mapGet, List.find?, h]
    · simp only [mapHas, mapGet] at ih
      simp [mapHas, mapGet, List.find?, h, ih]

theorem mapGet_some_key {m : List α} {k : κ} {x : α} (h : mapGet key m k = some x) :
    key x = k := by
  have := List.find?_some h
  simpa using this

theorem mapGet_some_mem {m : List α} {k : κ} {x : α} (h : mapGet key m k = some x) :
    x ∈ m :=
  List.mem_of_find?_eq_some h

theorem mapGet_none_iff (m : List α) (k : κ) :
    mapGet key m k = none ↔ ∀ x ∈ m, key x ≠ k := by
  simp [mapGet, List.find?_eq_none]

theorem mapSet_of_get_none {m : List α} {v : α} (h : mapGet key m (key v) = none) :
    mapSet key m v = m ++ [v] := by
  induction m with
  | nil => rfl
  | cons x xs ih =>
    have hx : key x ≠ key v := (mapGet_none_iff key _ _).1 h x (List.mem_cons_self _ _)
    have hxs : mapGet key xs (key v) = none := by
      rw [mapGet_none_iff] at h ⊢
      exact fun y hy => h y (List.mem_cons_of_mem _ hy)
    simp [mapSet, hx, ih hxs]

theorem mapGet_mapSet_self (m : List α) (v : α) :
    mapGet key (mapSet key m v) (key v) = some v := by
  induction m with
  | nil => simp [mapSet, mapGet]
  | cons x xs ih =>
    by_cases h : key x = key v
    · simp [mapSet, mapGet, h]
    · simp only [mapGet] at ih
      simp [mapSet, mapGet, h, List.find?, ih]

theorem mapGet_mapSet_of_ne (m : List α) (v : α) {k : κ} (hk : key v ≠ k) :
    mapGet key (mapSet key m v) k = mapGet key m k := by
  induction m with
  | nil => simp [mapSet, mapGet, hk]
  | cons x xs ih =>
    by_cases h : key x = key v
    · have hx : key x ≠ k := h ▸ hk
      simp [mapSet, mapGet, h, List.find?, hk]
    · simp only [mapGet] at ih
      by_cases hx : key x = k
      · have hk2 : ¬ k = key v := fun e => hk e.symm
        simp [mapSet, mapGet, List.find?, hx, hk2]
      · simp [mapSet, mapGet, h, List.find?, hx, ih]

theorem countP_mapSet_of_get_none (p : α → Bool) {m : List α} {v : α}
    (h : mapGet key m (key v) = none) :
    (mapSet key m v).countP p = m.countP p + (if p v then 1 else 0) := by
  rw [mapSet_of_get_none key h, List.countP_append]
  by_cases hp : p v <;> simp [hp]

theorem countP_mapSet_of_get_some (p : α → Bool) {m : List α} {v x : α}
    (h : mapGet key m (key v) = some x) :
    (mapSet key m v).countP p + (if p x then 1 else 0)
      = m.countP p + (if p v then 1 else 0) := by
  induction m with
  | nil => simp [mapGet] at h
  | cons y ys ih =>
    by_cases hy : key y = key v
    · have hyx : y = x := by simpa [mapGet, List.find?, hy] using h
      subst hyx
      simp only [mapSet, hy, if_true, List.countP_cons]
      omega
    · have hys : mapGet key ys (key v) = some x := by
        simpa [mapGet, List.find?, hy] using h
      have := ih hys
      simp only [mapSet, hy, if_false, List.countP_cons]
      omega

theorem map_key_mapSet_of_get_some {m : List α} {v x : α}
    (h : mapGet key m (key v) = some x) :
    (mapSet key m v).map key = m.map key := by
  induction m with
  | nil => simp [mapGet] at h
  | cons y ys ih =>
    by_cases hy : key y = key v
    · simp [mapSet, hy]
    · have hys : mapGet key ys (key v) = some x := by
        simpa [mapGet, List.find?, hy] using h
      simp [mapSet, hy, ih hys]

theorem mapGet_of_find?_of_nodup {p : α → Bool} {m : List α} {i : α}
    (hnd : (m.map key).Nodup) (h : m.find? p = some i) :
    mapGet key m (key i) = some i := by
  induction m with
  | nil => simp at h
  | cons y ys ih =>
    rw [List.map_cons, List.nodup_cons] at hnd
    by_cases hy : p y
    · have : y = i := by simpa [List.find?, hy] using h
      subst this
      simp [mapGet]
    · have hys : ys.find? p = some i := by simpa [List.find?, hy] using h
      have hmem : i ∈ ys := List.mem_of_find?_eq_some hys
      have hne : key y ≠ key i := by
        intro heq
        exact hnd.1 (heq ▸ List.mem_map_of_mem key hmem)
      have := ih hnd.2 hys
      simp only [mapGet] at this
      simp [mapGet, List.find?, hne, this]

end MapLemmas

/-! ## Store lemmas -/

@[simp] theorem ensureStudent_interventions (m : Memory) (sid : String) :
    (ensureStudent m sid).interventions = m.interventions := by
  unfold ensureStudent; split <;> rfl

@[simp] theorem ensureStudent_interventionAutoId (m : Memory) (sid : String) :
    (ensureStudent m sid).interventionAutoId = m.interventionAutoId := by
  unfold ensureStudent; split <;> rfl

@[simp] theorem updateStudentStatus_interventions (m : Memory) (sid st : String) :
    (updateStudentStatus m sid st).interventions = m.interventions := rfl

@[simp] theorem updateStudentStatus_interventionAutoId (m : Memory) (sid st : String) :
    (updateStudentStatus m sid st).interventionAutoId = m.interventionAutoId := rfl

@[simp] theorem insertDailyLog_interventions (m : Memory) (sid : String) (q f : JSNumber)
    (now : Nat) : (insertDailyLog m sid q f now).interventions = m.interventions := rfl

@[simp] theorem insertDailyLog_interventionAutoId (m : Memory) (sid : String) (q f : JSNumber)
    (now : Nat) : (insertDailyLog m sid q f now).interventionAutoId = m.interventionAutoId := rfl

@[simp] theorem insertDailyLog_students (m : Memory) (sid : String) (q f : JSNumber)
    (now : Nat) : (insertDailyLog m sid q f now).students = m.students := rfl

@[simp] theorem createOrGet_students (m : Memory) (sid : String) (now : Nat) :
    (createOrGetPendingIntervention m sid now).1.students = m.students := by
  unfold createOrGetPendingIntervention; split <;> rfl

@[simp] theorem assignInterventionTask_students (m : Memory) (sid : String) (k : Option Nat)
    (task : String) (now : Nat) :
    (assignInterventionTask m sid k task now).1.students = m.students := by
  unfold assignInterventionTask
  cases k with
  | none => simp
  | some k => cases h : mapGet Intervention.id m.interventions k <;> simp [h]

@[simp] theorem completeActiveIntervention_students (m : Memory) (sid : String) (now : Nat) :
    (completeActiveIntervention m sid now).1.students = m.students := by
  unfold completeActiveIntervention; split <;> rfl

theorem getStudent_updateStudentStatus (m : Memory) (sid st : String) :
    getStudent (updateStudentStatus m sid st) sid = some { id := sid, status := st } := by
  unfold getStudent updateStudentStatus
  cases h : mapGet Student.id m.students sid with
  | none =>
    exact mapGet_mapSet_self Student.id m.students { id := sid, status := st }
  | some s =>
    have hk : s.id = sid := mapGet_some_key Student.id h
    have := mapGet_mapSet_self Student.id m.students { s with status := st }
    simpa [hk] using this

theorem getStudent_congr {m m' : Memory} (h : m'.students = m.students) (sid : String) :
    getStudent m' sid = getStudent m sid := by
  unfold getStudent; rw [h]

theorem getActiveIntervention_congr {m m' : Memory} (h : m'.interventions = m.interventions)
    (sid : String) : getActiveIntervention m' sid = getActiveIntervention m sid := by
  unfold getActiveIntervention; rw [h]

theorem find?_eq_none_iff_countP {α : Type} (p : α → Bool) (l : List α) :
    l.find? p = none ↔ l.countP p = 0 := by
  rw [List.find?_eq_none, List.countP_eq_zero]

theorem createOrGet_interventions (m : Memory) (sid : String) (now : Nat) :
    (createOrGetPendingIntervention m sid now).1.interventions =
      if activeCount m sid = 0 then
        mapSet Intervention.id m.interventions (newIntervention m sid now)
      else m.interventions := by
  unfold createOrGetPendingIntervention activeCount
  cases h : m.interventions.find? (isActiveFor sid) with
  | none =>
    have h0 := (find?_eq_none_iff_countP _ _).1 h
    simp [h0, newIntervention]
  | some i =>
    have h0 : m.interventions.countP (isActiveFor sid) ≠ 0 := by
      intro hc
      rw [← find?_eq_none_iff_countP, h] at hc
      exact absurd hc (by simp)
    simp [h0]

theorem dailyCheckin_fail_state (env : Env) (m : Memory) (sid : String) (q f : JSNumber)
    (hsid : sid ≠ "") (hfail : (q.gt 7 && f.gt 60) = false) :
    (dailyCheckin env m ⟨sid, .number q, .number f⟩).1 =
      (createOrGetPendingIntervention
        (updateStudentStatus (insertDailyLog (ensureStudent m sid) sid q f env.logNow)
          sid "Needs Intervention") sid env.opNow).1 := by
  simp only [dailyCheckin, hsid, hfail, if_false]
  cases env.webhook <;> simp

theorem dailyCheckin_fail_interventions (env : Env) (m : Memory) (sid : String)
    (q f : JSNumber) (hsid : sid ≠ "") (hfail : (q.gt 7 && f.gt 60) = false) :
    (dailyCheckin env m ⟨sid, .number q, .number f⟩).1.interventions =
      if activeCount m sid = 0 then
        mapSet Intervention.id m.interventions (newIntervention m sid env.opNow)
      else m.interventions := by
  rw [dailyCheckin_fail_state env m sid q f hsid hfail, createOrGet_interventions]
  simp [activeCount, newIntervention]

theorem countP_mapSet_of_countP_zero {p : Intervention → Bool} {l : List Intervention}
    (v : Intervention) (h0 : l.countP p = 0) (hv : p v = true) :
    (mapSet Intervention.id l v).countP p = 1 := by
  cases hg : mapGet Intervention.id l v.id with
  | none =>
    rw [countP_mapSet_of_get_none Intervention.id p hg, h0]; simp [hv]
  | some x =>
    have hx : p x = false := by
      have hmem := mapGet_some_mem Intervention.id hg
      rw [List.countP_eq_zero] at h0
      simpa using h0 x hmem
    have := countP_mapSet_of_get_some Intervention.id p hg
    simp only [hx, hv, if_true, h0] at this
    simpa using this

theorem run_failing_keeps_interventions (sid : String) (hsid : sid ≠ "")
    (cs : List (Env × JSNumber × JSNumber)) (hcs : ∀ x ∈ cs, failing x = true) :
    ∀ m : Memory, activeCount m sid ≠ 0 →
      (run m (cs.map (checkinOf sid))).interventions = m.interventions := by
  induction cs with
  | nil => intro m _; rfl
  | cons c cs ih =>
    intro m hm
    have hc : (c.2.1.gt 7 && c.2.2.gt 60) = false := by
      have := hcs c (List.mem_cons_self _ _)
      rw [failing, Bool.not_eq_true'] at this
      exact this
    have hstep : (step m (checkinOf sid c)).interventions = m.interventions := by
      simp only [step, checkinOf]
      rw [dailyCheckin_fail_interventions c.1 m sid c.2.1 c.2.2 hsid hc]
      simp [hm]
    have hm1 : activeCount (step m (checkinOf sid c)) sid ≠ 0 := by
      unfold activeCount; rw [hstep]; exact hm
    have := ih (fun x hx => hcs x (List.mem_cons_of_mem _ hx)) _ hm1
    simp only [List.map_cons, run, List.foldl_cons] at this ⊢
    rw [this, hstep]

/-! ## The invariant of the intervention map -/

theorem isActiveFor_student {sid : String} {i : Intervention} (h : isActiveFor sid i = true) :
    i.student_id = sid := by
  simp only [isActiveFor, Bool.and_eq_true, decide_eq_true_eq] at h
  exact h.1

theorem keysFresh_get_none {m : Memory} (h : KeysFresh m) :
    mapGet Intervention.id m.interventions m.interventionAutoId = none := by
  rw [mapGet_none_iff]
  intro x hx
  exact Nat.ne_of_lt (h.2 x hx)

/-- Replacing the record stored at a key by one with the same key keeps the
keys, and keeps the invariant when the new record is active only where the old
one was or where nothing was active. -/
theorem replace_preserves {m : Memory} (t v : Intervention) (m' : Memory)
    (hk : KeysFresh m) (ha : AtMostOneActive m)
    (hget : mapGet Intervention.id m.interventions t.id = some t) (hid : v.id = t.id)
    (hint : m'.interventions = mapSet Intervention.id m.interventions v)
    (hauto : m'.interventionAutoId = m.interventionAutoId)
    (hact : ∀ sid, isActiveFor sid v = true →
      isActiveFor sid t = true ∨ activeCount m sid = 0) :
    KeysFresh m' ∧ AtMostOneActive m' := by
  have hget2 : mapGet Intervention.id m.interventions v.id = some t := by rw [hid]; exact hget
  have hkeys := map_key_mapSet_of_get_some Intervention.id hget2
  refine ⟨⟨?_, ?_⟩, ?_⟩
  · rw [hint, hkeys]; exact hk.1
  · intro i hi
    rw [hint] at hi
    have hmem : i.id ∈ (mapSet Intervention.id m.interventions v).map Intervention.id :=
      List.mem_map_of_mem _ hi
    rw [hkeys, List.mem_map] at hmem
    obtain ⟨j, hj, hji⟩ := hmem
    rw [hauto, ← hji]
    exact hk.2 j hj
  · intro sid
    have hc := countP_mapSet_of_get_some Intervention.id (isActiveFor sid) hget2
    have h1 := ha sid
    unfold activeCount at h1 ⊢
    rw [hint]
    by_cases hv : isActiveFor sid v = true
    · rcases hact sid hv with ht | h0
      · simp only [hv, ht, if_true] at hc; omega
      · unfold activeCount at h0
        simp only [hv, if_true, h0] at hc
        split at hc <;> omega
    · simp only [hv] at hc
      split at hc <;> simp at hc <;> omega

theorem createOrGet_preserves {m : Memory} (sid : String) (now : Nat)
    (hk : KeysFresh m) (ha : AtMostOneActive m) :
    KeysFresh (createOrGetPendingIntervention m sid now).1 ∧
    AtMostOneActive (createOrGetPendingIntervention m sid now).1 ∧
    mapGet Intervention.id (createOrGetPendingIntervention m sid now).1.interventions
      (createOrGetPendingIntervention m sid now).2.id
        = some (createOrGetPendingIntervention m sid now).2 ∧
    isActiveFor sid (createOrGetPendingIntervention m sid now).2 = true := by
  unfold createOrGetPendingIntervention
  cases h : m.interventions.find? (isActiveFor sid) with
  | some i =>
    refine ⟨hk, ha, mapGet_of_find?_of_nodup Intervention.id hk.1 h, ?_⟩
    have := List.find?_some h
    simpa using this
  | none =>
    have hnone := keysFresh_get_none hk
    have happ := mapSet_of_get_none Intervention.id (m := m.interventions)
      (v := newIntervention m sid now) hnone
    simp only [newIntervention] at happ
    refine ⟨⟨?_, ?_⟩, ?_, ?_, ?_⟩
    · simp only [happ, List.map_append, List.map_cons, List.map_nil]
      rw [List.nodup_append]
      refine ⟨hk.1, List.nodup_singleton _, ?_⟩
      intro a ha1 ha2
      rw [List.mem_singleton] at ha2
      rw [List.mem_map] at ha1
      obtain ⟨j, hj, hja⟩ := ha1
      have := hk.2 j hj
      omega
    · intro i hi
      simp only [happ, List.mem_append, List.mem_singleton] at hi
      rcases hi with hi | hi
      · have := hk.2 i hi; simp only; omega
      · subst hi; simp
    · intro sid'
      have h0 := (find?_eq_none_iff_countP _ _).1 h
      have h1 := ha sid'
      unfold activeCount at h1 ⊢
      simp only [happ, List.countP_append, List.countP_cons, List.countP_nil]
      by_cases hs : sid = sid'
      · subst hs; rw [h0]; split <;> omega
      · have : isActiveFor sid'
            { id := m.interventionAutoId, student_id := sid, task := none,
              status := "pending", created_at := now, completed_at := none } = false := by
          simp [isActiveFor, hs]
        simp only [this]; simpa using h1
    · exact mapGet_mapSet_self Intervention.id m.interventions _
    · simp [isActiveFor]

theorem inv_congr {m m' : Memory} (hint : m'.interventions = m.interventions)
    (hauto : m'.interventionAutoId = m.interventionAutoId)
    (h : KeysFresh m ∧ AtMostOneActive m) : KeysFresh m' ∧ AtMostOneActive m' := by
  obtain ⟨hk, ha⟩ := h
  refine ⟨⟨?_, ?_⟩, ?_⟩
  · rw [hint]; exact hk.1
  · rw [hint, hauto]; exact hk.2
  · intro sid; unfold activeCount; rw [hint]; exact ha sid

theorem dailyCheckin_preserves (env : Env) (m : Memory) (body : CheckinBody)
    (h : KeysFresh m ∧ AtMostOneActive m) :
    KeysFresh (dailyCheckin env m body).1 ∧ AtMostOneActive (dailyCheckin env m body).1 := by
  obtain ⟨sid, qv, fv⟩ := body
  cases qv <;> cases fv <;> try exact h
  rename_i q f
  by_cases hsid : sid = ""
  · simpa [dailyCheckin, hsid] using h
  · by_cases hs : (q.gt 7 && f.gt 60) = true
    · have : (dailyCheckin env m ⟨sid, .number q, .number f⟩).1
          = updateStudentStatus (insertDailyLog (ensureStudent m sid) sid q f env.logNow)
              sid "On Track" := by
        simp [dailyCheckin, hsid, hs]
      rw [this]
      exact inv_congr (by simp) (by simp) h
    · have hs' : (q.gt 7 && f.gt 60) = false := by simpa using hs
      rw [dailyCheckin_fail_state env m sid q f hsid hs']
      have h3 : KeysFresh (updateStudentStatus
            (insertDailyLog (ensureStudent m sid) sid q f env.logNow) sid "Needs Intervention") ∧
          AtMostOneActive (updateStudentStatus
            (insertDailyLog (ensureStudent m sid) sid q f env.logNow) sid "Needs Intervention") :=
        inv_congr (by simp) (by simp) h
      have := createOrGet_preserves sid env.opNow h3.1 h3.2
      exact ⟨this.1, this.2.1⟩

theorem markComplete_preserves (env : Env) (m : Memory) (body : CompleteBody)
    (h : KeysFresh m ∧ AtMostOneActive m) :
    KeysFresh (markComplete env m body).1 ∧ AtMostOneActive (markComplete env m body).1 := by
  obtain ⟨sid⟩ := body
  by_cases hsid : sid = ""
  · simpa [markComplete, hsid] using h
  · have h1 : KeysFresh (ensureStudent m sid) ∧ AtMostOneActive (ensureStudent m sid) :=
      inv_congr (by simp) (by simp) h
    simp only [markComplete, hsid, if_false]
    refine inv_congr (m := (completeActiveIntervention (ensureStudent m sid) sid env.opNow).1)
      (by simp) (by simp) ?_
    unfold completeActiveIntervention
    cases hf : (ensureStudent m sid).interventions.find? (isActiveFor sid) with
    | none => exact h1
    | some i =>
      have hget := mapGet_of_find?_of_nodup Intervention.id h1.1.1 hf
      refine replace_preserves i
        { i with status := "completed", completed_at := some env.opNow } _
        h1.1 h1.2 hget rfl rfl rfl ?_
      intro sid' hv
      simp [isActiveFor] at hv

theorem assignIntervention_preserves (env : Env) (m : Memory) (body : AssignBody)
    (h : KeysFresh m ∧ AtMostOneActive m)
    (hg : activatesSecond m (.assign env body) = false) :
    KeysFresh (assignIntervention env m body).1 ∧
      AtMostOneActive (assignIntervention env m body).1 := by
  obtain ⟨sid, k, task⟩ := body
  by_cases hv : sid = "" ∨ task = ""
  · simpa [assignIntervention, hv] using h
  · have h1 : KeysFresh (ensureStudent m sid) ∧ AtMostOneActive (ensureStudent m sid) :=
      inv_congr (by simp) (by simp) h
    simp only [assignIntervention, hv, if_false]
    refine inv_congr
      (m := (assignInterventionTask (ensureStudent m sid) sid k task env.opNow).1)
      (by simp) (by simp) ?_
    have fallback : KeysFresh
        (({ (createOrGetPendingIntervention (ensureStudent m sid) sid env.opNow).1 with
            interventions := mapSet Intervention.id
              (createOrGetPendingIntervention (ensureStudent m sid) sid env.opNow).1.interventions
              { (createOrGetPendingIntervention (ensureStudent m sid) sid env.opNow).2 with
                task := some task, status := "assigned" } } : Memory)) ∧
        AtMostOneActive
        (({ (createOrGetPendingIntervention (ensureStudent m sid) sid env.opNow).1 with
            interventions := mapSet Intervention.id
              (createOrGetPendingIntervention (ensureStudent m sid) sid env.opNow).1.interventions
              { (createOrGetPendingIntervention (ensureStudent m sid) sid env.opNow).2 with
                task := some task, status := "assigned" } } : Memory)) := by
      obtain ⟨c1, c2, c3, c4⟩ := createOrGet_preserves sid env.opNow h1.1 h1.2
      refine replace_preserves
        (createOrGetPendingIntervention (ensureStudent m sid) sid env.opNow).2
        { (createOrGetPendingIntervention (ensureStudent m sid) sid env.opNow).2 with
          task := some task, status := "assigned" } _ c1 c2 c3 rfl rfl rfl ?_
      intro sid' hv'
      left
      have hs : sid = sid' := by
        have := isActiveFor_student hv'
        have h4 := isActiveFor_student c4
        simp only at this
        rw [← this, h4]
      subst hs
      exact c4
    cases k with
    | none => exact fallback
    | some k =>
      cases hget : mapGet Intervention.id (ensureStudent m sid).interventions k with
      | none =>
        simp only [assignInterventionTask, hget]
        exact fallback
      | some t =>
        simp only [assignInterventionTask, hget]
        have hkey : t.id = k := mapGet_some_key Intervention.id hget
        have hget' : mapGet Intervention.id (ensureStudent m sid).interventions t.id = some t := by
          rw [hkey]; exact hget
        refine replace_preserves t { t with task := some task, status := "assigned" } _
          h1.1 h1.2 hget' rfl rfl rfl ?_
        intro sid' hv'
        have hs : t.student_id = sid' :=
          isActiveFor_student (i := { t with task := some task, status := "assigned" }) hv'
        have hgm : mapGet Intervention.id m.interventions k = some t := by
          rw [← ensureStudent_interventions m sid]; exact hget
        simp only [activatesSecond, hgm, Bool.and_eq_false_iff, Bool.not_eq_false',
          decide_eq_false_iff_not, not_not] at hg
        rcases hg with hg | hg
        · left; rw [← hs]; exact hg
        · right
          unfold activeCount at hg ⊢
          rw [ensureStudent_interventions, ← hs]; exact hg

theorem step_preserves (m : Memory) (r : Request) (h : KeysFresh m ∧ AtMostOneActive m)
    (hg : activatesSecond m r = false) :
    KeysFresh (step m r) ∧ AtMostOneActive (step m r) := by
  cases r with
  | checkin env body => exact dailyCheckin_preserves env m body h
  | assign env body => exact assignIntervention_preserves env m body h hg
  | complete env body => exact markComplete_preserves env m body h

theorem run_preserves (rs : List Request) :
    ∀ m : Memory, KeysFresh m ∧ AtMostOneActive m → neverActivatesSecond m rs = true →
      KeysFresh (run m rs) ∧ AtMostOneActive (run m rs) := by
  induction rs with
  | nil => intro m h _; exact h
  | cons r rs ih =>
    intro m h hg
    simp only [neverActivatesSecond, Bool.and_eq_true, Bool.not_eq_true'] at hg
    have := ih (step m r) (step_preserves m r h hg.1) hg.2
    simpa only [run, List.foldl_cons] using this

theorem empty_inv : KeysFresh Memory.empty ∧ AtMostOneActive Memory.empty := by
  refine ⟨⟨?_, ?_⟩, ?_⟩
  · simp [Memory.empty]
  · intro i hi; simp [Memory.empty] at hi
  · intro sid; simp [activeCount, Memory.empty]

/-! ## Reading back what an assign wrote -/

theorem find?_mapSet_of_before {α κ : Type} [DecidableEq κ] (key : α → κ) (p : α → Bool)
    (l : List α) (v : α) (hv : p v = true)
    (hpre : (l.takeWhile (fun x => decide (key x ≠ key v))).all (fun x => !(p x)) = true) :
    (mapSet key l v).find? p = some v := by
  induction l with
  | nil => simp [mapSet, List.find?, hv]
  | cons x xs ih =>
    by_cases hx : key x = key v
    · simp [mapSet, hx, List.find?, hv]
    · have hd : decide (key x ≠ key v) = true := by simpa using hx
      rw [List.takeWhile_cons, hd] at hpre
      simp only [if_true, List.all_cons, Bool.and_eq_true, Bool.not_eq_true'] at hpre
      simp only [mapSet, hx, if_false, List.find?, hpre.1]
      exact ih hpre.2

theorem before_of_find? {α κ : Type} [DecidableEq κ] (key : α → κ) (p : α → Bool)
    (l : List α) (i : α) (h : l.find? p = some i) :
    (l.takeWhile (fun x => decide (key x ≠ key i))).all (fun x => !(p x)) = true := by
  induction l with
  | nil => simp at h
  | cons x xs ih =>
    by_cases hx : key x = key i
    · simp [List.takeWhile_cons, hx]
    · have hd : decide (key x ≠ key i) = true := by simpa using hx
      by_cases hp : p x = true
      · have : x = i := by simpa [List.find?, hp] using h
        exact absurd (by rw [this]) hx
      · have hxs : xs.find? p = some i := by simpa [List.find?, hp] using h
        rw [List.takeWhile_cons, hd]
        simp only [if_true, List.all_cons, Bool.and_eq_true, Bool.not_eq_true']
        exact ⟨by simpa using hp, ih hxs⟩

theorem before_mapSet_of_none {α κ : Type} [DecidableEq κ] (key : α → κ) (p : α → Bool)
    (l : List α) (v : α) (h : l.find? p = none) :
    ((mapSet key l v).takeWhile (fun x => decide (key x ≠ key v))).all (fun x => !(p x))
      = true := by
  induction l with
  | nil => simp [mapSet, List.takeWhile_cons]
  | cons x xs ih =>
    have hp : p x = false := by
      have := List.find?_eq_none.1 h x (List.mem_cons_self _ _)
      simpa using this
    have hxs : xs.find? p = none := by simpa [List.find?, hp] using h
    by_cases hx : key x = key v
    · simp [mapSet, hx, List.takeWhile_cons]
    · have hd : decide (key x ≠ key v) = true := by simpa using hx
      simp only [mapSet, hx, if_false, List.takeWhile_cons, hd, if_true, List.all_cons, hp,
        Bool.not_false, Bool.true_and]
      exact ih hxs

theorem createOrGet_target (m : Memory) (sid : String) (now : Nat) :
    isActiveFor sid (createOrGetPendingIntervention m sid now).2 = true ∧
    ((createOrGetPendingIntervention m sid now).1.interventions.takeWhile
        (fun x => decide (x.id ≠ (createOrGetPendingIntervention m sid now).2.id))).all
      (fun x => !(isActiveFor sid x)) = true := by
  unfold createOrGetPendingIntervention
  cases h : m.interventions.find? (isActiveFor sid) with
  | some i =>
    refine ⟨?_, before_of_find? Intervention.id _ _ _ h⟩
    have := List.find?_some h
    simpa using this
  | none =>
    refine ⟨by simp [isActiveFor], ?_⟩
    exact before_mapSet_of_none Intervention.id (isActiveFor sid) m.interventions _ h

theorem assignInterventionTask_active (m : Memory) (sid : String) (k : Option Nat)
    (task : String) (now : Nat) (hk : targetsStudent m sid k = true) :
    ∃ t : Intervention,
      getActiveIntervention (assignInterventionTask m sid k task now).1 sid = some t ∧
      t.task = some task := by
  have fallback : ∃ t : Intervention,
      (mapSet Intervention.id (createOrGetPendingIntervention m sid now).1.interventions
        { (createOrGetPendingIntervention m sid now).2 with
          task := some task, status := "assigned" }).find? (isActiveFor sid) = some t ∧
      t.task = some task := by
    obtain ⟨c1, c2⟩ := createOrGet_target m sid now
    refine ⟨_, find?_mapSet_of_before Intervention.id (isActiveFor sid) _ _ ?_ c2, rfl⟩
    have := isActiveFor_student c1
    simp [isActiveFor, this]
  unfold getActiveIntervention
  cases k with
  | none => exact fallback
  | some k =>
    cases hget : mapGet Intervention.id m.interventions k with
    | none =>
      simp only [assignInterventionTask, hget]
      exact fallback
    | some t =>
      simp only [assignInterventionTask, hget]
      simp only [targetsStudent, hget, Bool.and_eq_true, decide_eq_true_eq] at hk
      have hkey : t.id = k := mapGet_some_key Intervention.id hget
      refine ⟨_, find?_mapSet_of_before Intervention.id (isActiveFor sid) _ _ ?_ ?_, rfl⟩
      · simp [isActiveFor, hk.1]
      · simp only [hkey]; exact hk.2

theorem targetsStudent_congr {m m' : Memory} (h : m'.interventions = m.interventions)
    (sid : String) (k : Option Nat) : targetsStudent m' sid k = targetsStudent m sid k := by
  cases k with
  | none => rfl
  | some k => simp only [targetsStudent, h]

theorem all_takeWhile_of_all {α : Type} (p q : α → Bool) (l : List α)
    (h : l.all (fun x => !(p x) || q x) = true) :
    (l.takeWhile (fun x => !(q x))).all (fun x => !(p x)) = true := by
  induction l with
  | nil => rfl
  | cons x xs ih =>
    simp only [List.all_cons, Bool.and_eq_true, Bool.or_eq_true, Bool.not_eq_true'] at h
    by_cases hq : q x = true
    · simp [List.takeWhile_cons, hq]
    · have hq' : q x = false := by simpa using hq
      have hp : p x = false := by
        rcases h.1 with hp | hq2
        · exact hp
        · rw [hq'] at hq2; exact absurd hq2 (by simp)
      simp only [List.takeWhile_cons, hq', Bool.not_false, if_true, List.all_cons, hp,
        Bool.true_and]
      exact ih h.2

theorem targetsStudent_of_ownTarget (m : Memory) (sid : String) (k : Option Nat)
    (h : ownTarget m sid k = true) : targetsStudent m sid k = true := by
  cases k with
  | none => rfl
  | some k =>
    cases hg : mapGet Intervention.id m.interventions k with
    | none => simp [ownTarget, hg] at h
    | some t =>
      simp only [ownTarget, hg, Bool.and_eq_true, decide_eq_true_eq] at h
      simp only [targetsStudent, hg, Bool.and_eq_true, decide_eq_true_eq]
      refine ⟨h.1, ?_⟩
      have := all_takeWhile_of_all (isActiveFor sid) (fun x => decide (x.id = k))
        m.interventions h.2
      simpa using this

/-! ## The daily log under the store operations -/

@[simp] theorem ensureStudent_daily_logs (m : Memory) (sid : String) :
    (ensureStudent m sid).daily_logs = m.daily_logs := by
  unfold ensureStudent; split <;> rfl

@[simp] theorem updateStudentStatus_daily_logs (m : Memory) (sid st : String) :
    (updateStudentStatus m sid st).daily_logs = m.daily_logs := rfl

@[simp] theorem createOrGet_daily_logs (m : Memory) (sid : String) (now : Nat) :
    (createOrGetPendingIntervention m sid now).1.daily_logs = m.daily_logs := by
  unfold createOrGetPendingIntervention; split <;> rfl

@[simp] theorem assignInterventionTask_daily_logs (m : Memory) (sid : String)
    (k : Option Nat) (task : String) (now : Nat) :
    (assignInterventionTask m sid k task now).1.daily_logs = m.daily_logs := by
  unfold assignInterventionTask
  cases k with
  | none => simp
  | some k => cases h : mapGet Intervention.id m.interventions k <;> simp [h]

@[simp] theorem completeActiveIntervention_daily_logs (m : Memory) (sid : String)
    (now : Nat) : (completeActiveIntervention m sid now).1.daily_logs = m.daily_logs := by
  unfold completeActiveIntervention; split <;> rfl

/-! ## What a request does to the intervention map -/

theorem mapSet_append_of_get_none {α κ : Type} [DecidableEq κ] (key : α → κ)
    {l : List α} {v w : α} (h : mapGet key l (key v) = none) (hw : key w = key v) :
    mapSet key (l ++ [w]) v = l ++ [v] := by
  induction l with
  | nil => simp [mapSet, hw]
  | cons x xs ih =>
    have hx : key x ≠ key v := (mapGet_none_iff key _ _).1 h x (List.mem_cons_self _ _)
    have hxs : mapGet key xs (key v) = none := by
      rw [mapGet_none_iff] at h ⊢
      exact fun y hy => h y (List.mem_cons_of_mem _ hy)
    simp [mapSet, hx, ih hxs]

theorem mem_mapSet_of_key_ne {α κ : Type} [DecidableEq κ] (key : α → κ)
    {l : List α} {v y : α} (hy : y ∈ l) (hne : key y ≠ key v) : y ∈ mapSet key l v := by
  induction l with
  | nil => simp at hy
  | cons x xs ih =>
    by_cases hx : key x = key v
    · simp only [mapSet, hx, if_true]
      rcases List.mem_cons.1 hy with h | h
      · subst h; exact absurd hx hne
      · exact List.mem_cons_of_mem _ h
    · simp only [mapSet, hx, if_false]
      rcases List.mem_cons.1 hy with h | h
      · subst h; exact List.mem_cons_self _ _
      · exact List.mem_cons_of_mem _ (ih h)

theorem filter_mapSet_of_get_some {α κ : Type} [DecidableEq κ] (key : α → κ) (q : α → Bool)
    {l : List α} {v x : α} (h : mapGet key l (key v) = some x) (hx : q x = false)
    (hv : q v = false) : (mapSet key l v).filter q = l.filter q := by
  induction l with
  | nil => simp [mapGet] at h
  | cons y ys ih =>
    by_cases hy : key y = key v
    · have hyx : y = x := by simpa [mapGet, List.find?, hy] using h
      subst hyx
      simp [mapSet, hy, List.filter_cons, hx, hv]
    · have hys : mapGet key ys (key v) = some x := by
        simpa [mapGet, List.find?, hy] using h
      simp [mapSet, hy, List.filter_cons, ih hys]

theorem createOrGet_cases {m : Memory} (hk : KeysFresh m) (sid : String) (now : Nat) :
    (∃ i, m.interventions.find? (isActiveFor sid) = some i ∧
      createOrGetPendingIntervention m sid now = (m, i) ∧
      mapGet Intervention.id m.interventions i.id = some i ∧ isActiveFor sid i = true) ∨
    (m.interventions.find? (isActiveFor sid) = none ∧
      (createOrGetPendingIntervention m sid now).2 = newIntervention m sid now ∧
      (createOrGetPendingIntervention m sid now).1 =
        { m with interventionAutoId := m.interventionAutoId + 1,
                 interventions := m.interventions ++ [newIntervention m sid now] }) := by
  cases h : m.interventions.find? (isActiveFor sid) with
  | some i =>
    left
    refine ⟨i, rfl, ?_, mapGet_of_find?_of_nodup Intervention.id hk.1 h, ?_⟩
    · simp [createOrGetPendingIntervention, h]
    · have := List.find?_some h
      simpa using this
  | none =>
    right
    have happ := mapSet_of_get_none Intervention.id (m := m.interventions)
      (v := newIntervention m sid now) (keysFresh_get_none hk)
    refine ⟨rfl, ?_, ?_⟩
    · simp [createOrGetPendingIntervention, h, newIntervention]
    · simp only [createOrGetPendingIntervention, h]
      rw [← happ]
      rfl

/-- A check-in leaves the intervention map and the counter alone, or appends one
pending intervention of its student under the key `interventionAutoId`. -/
theorem dailyCheckin_effect {m : Memory} (hk : KeysFresh m) (env : Env) (body : CheckinBody) :
    ((dailyCheckin env m body).1.interventions = m.interventions ∧
      (dailyCheckin env m body).1.interventionAutoId = m.interventionAutoId) ∨
    ((dailyCheckin env m body).1.interventions
        = m.interventions ++ [newIntervention m body.student_id env.opNow] ∧
      (dailyCheckin env m body).1.interventionAutoId = m.interventionAutoId + 1) := by
  obtain ⟨sid, qv, fv⟩ := body
  cases qv <;> cases fv <;> try exact Or.inl ⟨rfl, rfl⟩
  rename_i q f
  by_cases hsid : sid = ""
  · left; simp [dailyCheckin, hsid]
  · by_cases hs : (q.gt 7 && f.gt 60) = true
    · left; simp [dailyCheckin, hsid, hs]
    · have hs' : (q.gt 7 && f.gt 60) = false := by simpa using hs
      rw [dailyCheckin_fail_state env m sid q f hsid hs']
      have hk3 : KeysFresh (updateStudentStatus
          (insertDailyLog (ensureStudent m sid) sid q f env.logNow) sid "Needs Intervention") :=
        ⟨by simpa using hk.1, by simpa using hk.2⟩
      rcases createOrGet_cases hk3 sid env.opNow with ⟨i, _, hc, _, _⟩ | ⟨_, _, hc⟩
      · left; rw [hc]; simp
      · right; rw [hc]; simp [newIntervention]

theorem assignInterventionTask_of_found (m : Memory) (sid : String) (k : Nat)
    (task : String) (now : Nat) (t : Intervention)
    (h : mapGet Intervention.id m.interventions k = some t) :
    assignInterventionTask m sid (some k) task now =
      ({ m with interventions := (mapSet Intervention.id m.interventions
            { t with task := some task, status := "assigned" }) },
       { t with task := some task, status := "assigned" }) := by
  simp [assignInterventionTask, h]

theorem assignInterventionTask_of_fallback (m : Memory) (sid : String) (k : Option Nat)
    (task : String) (now : Nat)
    (h : k = none ∨ ∃ j, k = some j ∧ mapGet Intervention.id m.interventions j = none) :
    assignInterventionTask m sid k task now =
      ({ (createOrGetPendingIntervention m sid now).1 with
          interventions := (mapSet Intervention.id
            (createOrGetPendingIntervention m sid now).1.interventions
            { (createOrGetPendingIntervention m sid now).2 with
              task := some task, status := "assigned" }) },
       { (createOrGetPendingIntervention m sid now).2 with
          task := some task, status := "assigned" }) := by
  rcases h with h | ⟨j, hj, hg⟩
  · subst h; simp [assignInterventionTask]
  · subst hj; simp [assignInterventionTask, hg]

theorem assignInterventionTask_effect {m : Memory} (hk : KeysFresh m) (sid : String)
    (k : Option Nat) (task : String) (now : Nat) :
    ((assignInterventionTask m sid k task now).1.interventions
        = m.interventions ++
          [{ newIntervention m sid now with task := some task, status := "assigned" }] ∧
      (assignInterventionTask m sid k task now).1.interventionAutoId
        = m.interventionAutoId + 1) ∨
    (∃ t : Intervention, mapGet Intervention.id m.interventions t.id = some t ∧
      (k = some t.id ∨ isActiveFor sid t = true) ∧
      (assignInterventionTask m sid k task now).1.interventions
        = mapSet Intervention.id m.interventions
            { t with task := some task, status := "assigned" } ∧
      (assignInterventionTask m sid k task now).1.interventionAutoId
        = m.interventionAutoId) := by
  have fallback : (k = none ∨ ∃ j, k = some j ∧
        mapGet Intervention.id m.interventions j = none) →
      ((assignInterventionTask m sid k task now).1.interventions
          = m.interventions ++
            [{ newIntervention m sid now with task := some task, status := "assigned" }] ∧
        (assignInterventionTask m sid k task now).1.interventionAutoId
          = m.interventionAutoId + 1) ∨
      (∃ t : Intervention, mapGet Intervention.id m.interventions t.id = some t ∧
        isActiveFor sid t = true ∧
        (assignInterventionTask m sid k task now).1.interventions
          = mapSet Intervention.id m.interventions
              { t with task := some task, status := "assigned" } ∧
        (assignInterventionTask m sid k task now).1.interventionAutoId
          = m.interventionAutoId) := by
    intro hfb
    rw [assignInterventionTask_of_fallback m sid k task now hfb]
    rcases createOrGet_cases hk sid now with ⟨i, _, hc, hg, ha⟩ | ⟨_, h2, hc⟩
    · right
      refine ⟨i, hg, ha, ?_, ?_⟩
      · rw [hc]
      · rw [hc]
    · left
      rw [h2, hc]
      refine ⟨?_, rfl⟩
      have hnone : mapGet Intervention.id m.interventions
          (Intervention.id { newIntervention m sid now with
            task := some task, status := "assigned" }) = none :=
        keysFresh_get_none hk
      exact mapSet_append_of_get_none Intervention.id
        (w := newIntervention m sid now) hnone rfl
  cases k with
  | none =>
    rcases fallback (Or.inl rfl) with h | ⟨t, h1, h2, h3, h4⟩
    · left; exact h
    · right; exact ⟨t, h1, Or.inr h2, h3, h4⟩
  | some k =>
    cases hget : mapGet Intervention.id m.interventions k with
    | none =>
      rcases fallback (Or.inr ⟨k, rfl, hget⟩) with h | ⟨t, h1, h2, h3, h4⟩
      · left; exact h
      · right; exact ⟨t, h1, Or.inr h2, h3, h4⟩
    | some t =>
      have hkey : t.id = k := mapGet_some_key Intervention.id hget
      right
      rw [assignInterventionTask_of_found m sid k task now t hget]
      exact ⟨t, by rw [hkey]; exact hget, Or.inl (by rw [hkey]), rfl, rfl⟩

/-- An assign leaves the intervention map alone (rejected request), appends one
assigned intervention of its student under the key `interventionAutoId`, or
replaces a stored intervention `t`, which its `intervention_id` names or which
is active for its student, by `t` with the task and status 'assigned'. -/
theorem assignIntervention_effect {m : Memory} (hk : KeysFresh m) (env : Env)
    (body : AssignBody) :
    ((assignIntervention env m body).1.interventions = m.interventions ∧
      (assignIntervention env m body).1.interventionAutoId = m.interventionAutoId) ∨
    ((assignIntervention env m body).1.interventions
        = m.interventions ++
          [{ newIntervention m body.student_id env.opNow with
              task := some body.task, status := "assigned" }] ∧
      (assignIntervention env m body).1.interventionAutoId = m.interventionAutoId + 1) ∨
    (∃ t : Intervention, mapGet Intervention.id m.interventions t.id = some t ∧
      (body.intervention_id = some t.id ∨ isActiveFor body.student_id t = true) ∧
      (assignIntervention env m body).1.interventions
        = mapSet Intervention.id m.interventions
            { t with task := some body.task, status := "assigned" } ∧
      (assignIntervention env m body).1.interventionAutoId = m.interventionAutoId) := by
  obtain ⟨sid, k, task⟩ := body
  by_cases hv : sid = "" ∨ task = ""
  · left; simp [assignIntervention, hv]
  · have hk1 : KeysFresh (ensureStudent m sid) := ⟨by simpa using hk.1, by simpa using hk.2⟩
    simp only [assignIntervention, hv, if_false, updateStudentStatus_interventions,
      updateStudentStatus_interventionAutoId]
    rcases assignInterventionTask_effect hk1 sid k task env.opNow with h | ⟨t, h1, h2, h3, h4⟩
    · right; left
      simpa [newIntervention] using h
    · right; right
      exact ⟨t, by simpa using h1, h2, by simpa using h3, by simpa using h4⟩

/-- A mark-complete leaves the intervention map alone or replaces a stored
intervention that is active for its student by the same one with status
'completed' and `completed_at` set. -/
theorem markComplete_effect {m : Memory} (hk : KeysFresh m) (env : Env)
    (body : CompleteBody) :
    ((markComplete env m body).1.interventions = m.interventions ∧
      (markComplete env m body).1.interventionAutoId = m.interventionAutoId) ∨
    (∃ t : Intervention, mapGet Intervention.id m.interventions t.id = some t ∧
      isActiveFor body.student_id t = true ∧
      (markComplete env m body).1.interventions
        = mapSet Intervention.id m.interventions
            { t with status := "completed", completed_at := some env.opNow } ∧
      (markComplete env m body).1.interventionAutoId = m.interventionAutoId) := by
  obtain ⟨sid⟩ := body
  by_cases hsid : sid = ""
  · left; simp [markComplete, hsid]
  · simp only [markComplete, hsid, if_false, updateStudentStatus_interventions,
      updateStudentStatus_interventionAutoId]
    unfold completeActiveIntervention
    cases hf : (ensureStudent m sid).interventions.find? (isActiveFor sid) with
    | none => left; simp
    | some i =>
      right
      have hf' : m.interventions.find? (isActiveFor sid) = some i := by simpa using hf
      refine ⟨i, mapGet_of_find?_of_nodup Intervention.id hk.1 hf', ?_, by simp, by simp⟩
      have := List.find?_some hf'
      simpa using this

/-! ## Keys stay distinct and fresh -/

theorem keysFresh_of_same {m m' : Memory} (hk : KeysFresh m)
    (hint : m'.interventions = m.interventions)
    (hauto : m'.interventionAutoId = m.interventionAutoId) : KeysFresh m' := by
  refine ⟨?_, ?_⟩
  · rw [hint]; exact hk.1
  · rw [hint, hauto]; exact hk.2

theorem keysFresh_of_append {m m' : Memory} (hk : KeysFresh m) (v : Intervention)
    (hv : v.id = m.interventionAutoId)
    (hint : m'.interventions = m.interventions ++ [v])
    (hauto : m'.interventionAutoId = m.interventionAutoId + 1) : KeysFresh m' := by
  refine ⟨?_, ?_⟩
  · rw [hint, List.map_append, List.map_cons, List.map_nil, List.nodup_append]
    refine ⟨hk.1, List.nodup_singleton _, ?_⟩
    intro a ha1 ha2
    rw [List.mem_singleton] at ha2
    rw [List.mem_map] at ha1
    obtain ⟨j, hj, hja⟩ := ha1
    have := hk.2 j hj
    omega
  · intro i hi
    rw [hint, List.mem_append, List.mem_singleton] at hi
    rw [hauto]
    rcases hi with hi | hi
    · have := hk.2 i hi; omega
    · subst hi; omega

theorem keysFresh_of_replace {m m' : Memory} (hk : KeysFresh m) (t v : Intervention)
    (hget : mapGet Intervention.id m.interventions t.id = some t) (hid : v.id = t.id)
    (hint : m'.interventions = mapSet Intervention.id m.interventions v)
    (hauto : m'.interventionAutoId = m.interventionAutoId) : KeysFresh m' := by
  have hget2 : mapGet Intervention.id m.interventions v.id = some t := by rw [hid]; exact hget
  have hkeys := map_key_mapSet_of_get_some Intervention.id hget2
  refine ⟨?_, ?_⟩
  · rw [hint, hkeys]; exact hk.1
  · intro i hi
    rw [hint] at hi
    have hmem : i.id ∈ (mapSet Intervention.id m.interventions v).map Intervention.id :=
      List.mem_map_of_mem _ hi
    rw [hkeys, List.mem_map] at hmem
    obtain ⟨j, hj, hji⟩ := hmem
    rw [hauto, ← hji]
    exact hk.2 j hj

theorem keysFresh_step {m : Memory} (hk : KeysFresh m) (r : Request) :
    KeysFresh (step m r) := by
  cases r with
  | checkin env body =>
    rcases dailyCheckin_effect hk env body with ⟨h1, h2⟩ | ⟨h1, h2⟩
    · exact keysFresh_of_same hk h1 h2
    · exact keysFresh_of_append hk _ rfl h1 h2
  | assign env body =>
    rcases assignIntervention_effect hk env body with
      ⟨h1, h2⟩ | ⟨h1, h2⟩ | ⟨t, hg, _, h1, h2⟩
    · exact keysFresh_of_same hk h1 h2
    · exact keysFresh_of_append hk _ rfl h1 h2
    · exact keysFresh_of_replace hk t
        { t with task := some body.task, status := "assigned" } hg rfl h1 h2
  | complete env body =>
    rcases markComplete_effect hk env body with ⟨h1, h2⟩ | ⟨t, hg, _, h1, h2⟩
    · exact keysFresh_of_same hk h1 h2
    · exact keysFresh_of_replace hk t
        { t with status := "completed", completed_at := some env.opNow } hg rfl h1 h2

theorem keysFresh_run (rs : List Request) :
    ∀ m : Memory, KeysFresh m → KeysFresh (run m rs) := by
  induction rs with
  | nil => intro m h; exact h
  | cons r rs ih =>
    intro m h
    have := ih (step m r) (keysFresh_step h r)
    simpa only [run, List.foldl_cons] using this

theorem keysFresh_reachable (rs : List Request) : KeysFresh (run Memory.empty rs) :=
  keysFresh_run rs Memory.empty empty_inv.1

/-! ## The student map under a request -/

theorem dailyCheckin_response (env : Env) (m : Memory) (sid : String) (q f : JSNumber)
    (hsid : sid ≠ "") :
    (dailyCheckin env m ⟨sid, .number q, .number f⟩).2
      = .checkin (if q.gt 7 && f.gt 60 then "On Track" else "Pending Mentor Review") ∧
    getStudent (dailyCheckin env m ⟨sid, .number q, .number f⟩).1 sid
      = some { id := sid,
               status := if q.gt 7 && f.gt 60 then "On Track" else "Needs Intervention" } := by
  by_cases hs : (q.gt 7 && f.gt 60) = true
  · have h1 : dailyCheckin env m ⟨sid, .number q, .number f⟩
        = (updateStudentStatus
            (insertDailyLog (ensureStudent m sid) sid q f env.logNow) sid "On Track",
           .checkin "On Track") := by
      simp [dailyCheckin, hsid, hs]
    rw [h1]
    simp only [hs, if_true]
    exact ⟨trivial, getStudent_updateStudentStatus _ _ _⟩
  · have hs' : (q.gt 7 && f.gt 60) = false := by simpa using hs
    refine ⟨?_, ?_⟩
    · simp only [dailyCheckin, hsid, hs', if_false]
      cases env.webhook <;> simp
    · rw [dailyCheckin_fail_state env m sid q f hsid hs',
        getStudent_congr (createOrGet_students _ _ _)]
      simp only [hs']
      exact getStudent_updateStudentStatus _ _ _

theorem getStudent_ensureStudent_of_ne (m : Memory) {sid id : String} (h : sid ≠ id) :
    getStudent (ensureStudent m sid) id = getStudent m id := by
  unfold ensureStudent
  split
  · rfl
  · exact mapGet_mapSet_of_ne Student.id m.students _ h

theorem getStudent_updateStudentStatus_of_ne (m : Memory) {sid id : String} (st : String)
    (h : sid ≠ id) :
    getStudent (updateStudentStatus m sid st) id = getStudent m id := by
  unfold getStudent updateStudentStatus
  cases hg : mapGet Student.id m.students sid with
  | none => exact mapGet_mapSet_of_ne Student.id m.students _ h
  | some s =>
    have hk : s.id = sid := mapGet_some_key Student.id hg
    exact mapGet_mapSet_of_ne Student.id m.students _ (by simpa [hk] using h)

theorem step_of_invalid (m : Memory) (r : Request) (h : r.valid = false) : step m r = m := by
  cases r with
  | checkin env body =>
    obtain ⟨sid, qv, fv⟩ := body
    cases qv <;> cases fv <;> simp_all [step, dailyCheckin, Request.valid]
  | assign env body =>
    obtain ⟨sid, k, task⟩ := body
    have : sid = "" ∨ task = "" := by
      simp only [Request.valid, Bool.and_eq_false_iff, decide_eq_false_iff_not, not_not] at h
      exact h
    simp [step, assignIntervention, this]
  | complete env body =>
    obtain ⟨sid⟩ := body
    have : sid = "" := by simpa [Request.valid] using h
    simp [step, markComplete, this]

theorem getStudent_step_of_ne (m : Memory) (r : Request) {id : String}
    (h : r.student_id ≠ id) : getStudent (step m r) id = getStudent m id := by
  by_cases hv : r.valid = true
  · cases r with
    | checkin env body =>
      obtain ⟨sid, qv, fv⟩ := body
      cases qv <;> cases fv <;> try rfl
      rename_i q f
      have hsid : sid ≠ "" := by simpa [Request.valid] using hv
      have h' : sid ≠ id := h
      by_cases hs : (q.gt 7 && f.gt 60) = true
      · have : step m (.checkin env ⟨sid, .number q, .number f⟩)
            = updateStudentStatus (insertDailyLog (ensureStudent m sid) sid q f env.logNow)
                sid "On Track" := by
          simp [step, dailyCheckin, hsid, hs]
        rw [this, getStudent_updateStudentStatus_of_ne _ _ h',
          getStudent_congr (insertDailyLog_students _ _ _ _ _),
          getStudent_ensureStudent_of_ne _ h']
      · have hs' : (q.gt 7 && f.gt 60) = false := by simpa using hs
        simp only [step]
        rw [dailyCheckin_fail_state env m sid q f hsid hs',
          getStudent_congr (createOrGet_students _ _ _),
          getStudent_updateStudentStatus_of_ne _ _ h',
          getStudent_congr (insertDailyLog_students _ _ _ _ _),
          getStudent_ensureStudent_of_ne _ h']
    | assign env body =>
      obtain ⟨sid, k, task⟩ := body
      have h' : sid ≠ id := h
      have hv' : ¬ (sid = "" ∨ task = "") := by
        simp only [Request.valid, Bool.and_eq_true, decide_eq_true_eq] at hv
        exact fun hc => hc.elim hv.1 hv.2
      simp only [step, assignIntervention, hv', if_false]
      rw [getStudent_updateStudentStatus_of_ne _ _ h',
        getStudent_congr (assignInterventionTask_students _ _ _ _ _),
        getStudent_ensureStudent_of_ne _ h']
    | complete env body =>
      obtain ⟨sid⟩ := body
      have h' : sid ≠ id := h
      have hsid : sid ≠ "" := by simpa [Request.valid] using hv
      simp only [step, markComplete, hsid, if_false]
      rw [getStudent_updateStudentStatus_of_ne _ _ h',
        getStudent_congr (completeActiveIntervention_students _ _ _),
        getStudent_ensureStudent_of_ne _ h']
  · have hv' : r.valid = false := by simpa using hv
    rw [step_of_invalid m r hv']

/-- The status that a valid request leaves on its student. -/
theorem getStudent_step_self (m : Memory) (r : Request) (hv : r.valid = true) :
    ∃ st : String, getStudent (step m r) r.student_id
      = some { id := r.student_id, status := st } := by
  cases r with
  | checkin env body =>
    obtain ⟨sid, qv, fv⟩ := body
    cases qv <;> cases fv <;> try simp [Request.valid] at hv
    rename_i q f
    have hsid : sid ≠ "" := by simpa [Request.valid] using hv
    exact ⟨_, (dailyCheckin_response env m sid q f hsid).2⟩
  | assign env body =>
    obtain ⟨sid, k, task⟩ := body
    have hv' : ¬ (sid = "" ∨ task = "") := by
      simp only [Request.valid, Bool.and_eq_true, decide_eq_true_eq] at hv
      exact fun hc => hc.elim hv.1 hv.2
    refine ⟨"Remedial", ?_⟩
    simp only [step, assignIntervention, hv', if_false, Request.student_id]
    exact getStudent_updateStudentStatus _ _ _
  | complete env body =>
    obtain ⟨sid⟩ := body
    have hsid : sid ≠ "" := by simpa [Request.valid] using hv
    refine ⟨"On Track", ?_⟩
    simp only [step, markComplete, hsid, if_false, Request.student_id]
    exact getStudent_updateStudentStatus _ _ _

theorem getStudent_step_none_iff (m : Memory) (r : Request) (id : String) :
    getStudent (step m r) id = none ↔
      getStudent m id = none ∧ ¬ (r.valid = true ∧ r.student_id = id) := by
  by_cases hv : r.valid = true
  · by_cases hid : r.student_id = id
    · obtain ⟨st, hst⟩ := getStudent_step_self m r hv
      rw [hid] at hst
      constructor
      · intro h; rw [hst] at h; exact absurd h (by simp)
      · intro h; exact absurd ⟨hv, hid⟩ h.2
    · rw [getStudent_step_of_ne m r hid]
      constructor
      · intro h; exact ⟨h, fun hc => hid hc.2⟩
      · intro h; exact h.1
  · have hv' : r.valid = false := by simpa using hv
    rw [step_of_invalid m r hv']
    constructor
    · intro h; exact ⟨h, fun hc => hv hc.1⟩
    · intro h; exact h.1

theorem getStudent_run_none_iff (rs : List Request) (id : String) :
    ∀ m : Memory, getStudent (run m rs) id = none ↔
      getStudent m id = none ∧ ∀ r ∈ rs, r.valid = true → r.student_id ≠ id := by
  induction rs with
  | nil => intro m; simp [run]
  | cons r rs ih =>
    intro m
    have h1 := ih (step m r)
    simp only [run, List.foldl_cons] at h1 ⊢
    rw [h1, getStudent_step_none_iff]
    constructor
    · rintro ⟨⟨hm, hr⟩, hrs⟩
      refine ⟨hm, ?_⟩
      intro x hx hxv
      rcases List.mem_cons.1 hx with h | h
      · subst h; exact fun hc => hr ⟨hxv, hc⟩
      · exact hrs x h hxv
    · rintro ⟨hm, hall⟩
      refine ⟨⟨hm, fun hc => hall r (List.mem_cons_self _ _) hc.1 hc.2⟩, ?_⟩
      intro x hx hxv
      exact hall x (List.mem_cons_of_mem _ hx) hxv

/-! ## Frame lemmas for the intervention map -/

theorem find?_isActiveFor_filter (b : String) (l : List Intervention) :
    (l.filter (fun i => decide (i.student_id = b))).find? (isActiveFor b)
      = l.find? (isActiveFor b) := by
  induction l with
  | nil => rfl
  | cons x xs ih =>
    by_cases hx : x.student_id = b
    · simp only [List.filter_cons, hx, decide_True, if_true, List.find?_cons, ih]
    · have hp : isActiveFor b x = false := by simp [isActiveFor, hx]
      have hd : decide (x.student_id = b) = false := by simp [hx]
      simp only [List.filter_cons, hd, Bool.false_eq_true, if_false, List.find?_cons, hp]
      exact ih

theorem getStatus_congr {m m' : Memory} {b : String}
    (hs : getStudent m' b = getStudent m b)
    (hi : interventionsOf m' b = interventionsOf m b) :
    getStatus m' b = getStatus m b := by
  have ha : getActiveIntervention m' b = getActiveIntervention m b := by
    unfold getActiveIntervention
    rw [← find?_isActiveFor_filter b m'.interventions,
      ← find?_isActiveFor_filter b m.interventions]
    unfold interventionsOf at hi
    rw [hi]
  unfold getStatus
  rw [hs, ha]

theorem interventionsOf_of_append {m m' : Memory} {b : String} (v : Intervention)
    (hv : v.student_id ≠ b) (hint : m'.interventions = m.interventions ++ [v]) :
    interventionsOf m' b = interventionsOf m b := by
  unfold interventionsOf
  rw [hint, List.filter_append]
  simp [List.filter_cons, hv]

theorem interventionsOf_of_replace {m m' : Memory} {b : String} (t v : Intervention)
    (hget : mapGet Intervention.id m.interventions t.id = some t) (hid : v.id = t.id)
    (ht : t.student_id ≠ b) (hv : v.student_id ≠ b)
    (hint : m'.interventions = mapSet Intervention.id m.interventions v) :
    interventionsOf m' b = interventionsOf m b := by
  unfold interventionsOf
  rw [hint]
  have hget2 : mapGet Intervention.id m.interventions v.id = some t := by rw [hid]; exact hget
  exact filter_mapSet_of_get_some Intervention.id _ hget2 (by simpa using ht) (by simpa using hv)

theorem interventionsOf_step {m : Memory} (hk : KeysFresh m) (r : Request) (b : String)
    (hab : r.student_id ≠ b) (hn : namesInterventionOf m b r = false) :
    interventionsOf (step m r) b = interventionsOf m b := by
  cases r with
  | checkin env body =>
    rcases dailyCheckin_effect hk env body with ⟨h1, _⟩ | ⟨h1, _⟩
    · unfold interventionsOf; simp only [step]; rw [h1]
    · exact interventionsOf_of_append _ hab h1
  | assign env body =>
    rcases assignIntervention_effect hk env body with
      ⟨h1, _⟩ | ⟨h1, _⟩ | ⟨t, hg, hor, h1, _⟩
    · unfold interventionsOf; simp only [step]; rw [h1]
    · exact interventionsOf_of_append _ hab h1
    · have ht : t.student_id ≠ b := by
        rcases hor with hid | hact
        · intro hc
          simp only [namesInterventionOf, hid, hg] at hn
          simp [hc] at hn
        · rw [isActiveFor_student hact]; exact hab
      exact interventionsOf_of_replace t
        { t with task := some body.task, status := "assigned" } hg rfl ht ht h1
  | complete env body =>
    rcases markComplete_effect hk env body with ⟨h1, _⟩ | ⟨t, hg, hact, h1, _⟩
    · unfold interventionsOf; simp only [step]; rw [h1]
    · have ht : t.student_id ≠ b := by rw [isActiveFor_student hact]; exact hab
      exact interventionsOf_of_replace t
        { t with status := "completed", completed_at := some env.opNow } hg rfl ht ht h1

theorem mapGet_append_of_some {α κ : Type} [DecidableEq κ] (key : α → κ)
    {l : List α} {k : κ} {x : α} (h : mapGet key l k = some x) (l' : List α) :
    mapGet key (l ++ l') k = some x := by
  unfold mapGet at h ⊢
  rw [List.find?_append, h]
  rfl

theorem mapGet_step_of_completed {m : Memory} (hk : KeysFresh m) (r : Request)
    (i : Intervention) (hget : mapGet Intervention.id m.interventions i.id = some i)
    (hc : i.status = "completed")
    (hn : ¬ (r.valid = true ∧ namesIntervention i.id r = true)) :
    mapGet Intervention.id (step m r).interventions i.id = some i := by
  have hnotactive : ∀ sid, isActiveFor sid i = false := by
    intro sid; simp [isActiveFor, hc]
  by_cases hv : r.valid = true
  · have hn' : namesIntervention i.id r = false := by
      cases h : namesIntervention i.id r
      · rfl
      · exact absurd ⟨hv, h⟩ hn
    have replace : ∀ (t v : Intervention) (l' : List Intervention),
        mapGet Intervention.id m.interventions t.id = some t → v.id = t.id → t.id ≠ i.id →
        l' = mapSet Intervention.id m.interventions v →
        mapGet Intervention.id l' i.id = some i := by
      intro t v l' _ hid hne hl
      rw [hl, mapGet_mapSet_of_ne Intervention.id _ _ (by rw [hid]; exact hne)]
      exact hget
    have active_ne : ∀ (t : Intervention) (sid : String),
        mapGet Intervention.id m.interventions t.id = some t →
        isActiveFor sid t = true → t.id ≠ i.id := by
      intro t sid hg hact heq
      rw [heq, hget] at hg
      have : i = t := by simpa using hg
      rw [← this, hnotactive sid] at hact
      exact absurd hact (by simp)
    cases r with
    | checkin env body =>
      rcases dailyCheckin_effect hk env body with ⟨h1, _⟩ | ⟨h1, _⟩
      · simp only [step]; rw [h1]; exact hget
      · simp only [step]; rw [h1]; exact mapGet_append_of_some _ hget _
    | assign env body =>
      rcases assignIntervention_effect hk env body with
        ⟨h1, _⟩ | ⟨h1, _⟩ | ⟨t, hg, hor, h1, _⟩
      · simp only [step]; rw [h1]; exact hget
      · simp only [step]; rw [h1]; exact mapGet_append_of_some _ hget _
      · have hne : t.id ≠ i.id := by
          rcases hor with hid | hact
          · intro heq
            simp only [namesIntervention, hid, heq] at hn'
            simp at hn'
          · exact active_ne t _ hg hact
        exact replace t { t with task := some body.task, status := "assigned" } _
          hg rfl hne h1
    | complete env body =>
      rcases markComplete_effect hk env body with ⟨h1, _⟩ | ⟨t, hg, hact, h1, _⟩
      · simp only [step]; rw [h1]; exact hget
      · exact replace t { t with status := "completed", completed_at := some env.opNow } _
          hg rfl (active_ne t _ hg hact) h1
  · have hv' : r.valid = false := by simpa using hv
    rw [step_of_invalid m r hv']
    exact hget

theorem activeCount_step_mono {m : Memory} (hk : KeysFresh m) (r : Request) (id : String)
    (hne : r.student_id ≠ id) : activeCount m id ≤ activeCount (step m r) id := by
  unfold activeCount
  have same : ∀ l' : List Intervention, l' = m.interventions →
      m.interventions.countP (isActiveFor id) ≤ l'.countP (isActiveFor id) := by
    intro l' h; rw [h]
  have append : ∀ (l' : List Intervention) (v : Intervention), l' = m.interventions ++ [v] →
      m.interventions.countP (isActiveFor id) ≤ l'.countP (isActiveFor id) := by
    intro l' v h; rw [h, List.countP_append]; omega
  cases r with
  | checkin env body =>
    rcases dailyCheckin_effect hk env body with ⟨h1, _⟩ | ⟨h1, _⟩
    · exact same _ h1
    · exact append _ _ h1
  | assign env body =>
    rcases assignIntervention_effect hk env body with
      ⟨h1, _⟩ | ⟨h1, _⟩ | ⟨t, hg, _, h1, _⟩
    · exact same _ h1
    · exact append _ _ h1
    · simp only [step]; rw [h1]
      have hc := countP_mapSet_of_get_some Intervention.id (isActiveFor id)
        (v := { t with task := some body.task, status := "assigned" }) hg
      by_cases ht : isActiveFor id t = true
      · have hv : isActiveFor id { t with task := some body.task, status := "assigned" }
            = true := by
          simp [isActiveFor, isActiveFor_student ht]
        simp only [ht, hv, if_true] at hc; omega
      · have ht' : isActiveFor id t = false := by simpa using ht
        rw [ht'] at hc
        simp only [Bool.false_eq_true, if_false] at hc
        split at hc <;> omega
  | complete env body =>
    rcases markComplete_effect hk env body with ⟨h1, _⟩ | ⟨t, hg, hact, h1, _⟩
    · exact same _ h1
    · simp only [step]; rw [h1]
      have hc := countP_mapSet_of_get_some Intervention.id (isActiveFor id)
        (v := { t with status := "completed", completed_at := some env.opNow }) hg
      have hts : t.student_id ≠ id := by rw [isActiveFor_student hact]; exact hne
      have ht : isActiveFor id t = false := by simp [isActiveFor, hts]
      have hv : isActiveFor id
          { t with status := "completed", completed_at := some env.opNow } = false := by
        simp [isActiveFor]
      simp only [ht, hv] at hc
      simp at hc
      omega

/-! ## A student who needs intervention has an active one -/

theorem activeCount_dailyCheckin_fail (env : Env) (m : Memory) (sid : String)
    (q f : JSNumber) (hsid : sid ≠ "") (hfail : (q.gt 7 && f.gt 60) = false) :
    1 ≤ activeCount (dailyCheckin env m ⟨sid, .number q, .number f⟩).1 sid := by
  unfold activeCount
  rw [dailyCheckin_fail_interventions env m sid q f hsid hfail]
  by_cases h0 : activeCount m sid = 0
  · simp only [h0, if_true]
    have := countP_mapSet_of_countP_zero (p := isActiveFor sid)
      (newIntervention m sid env.opNow) h0 (by simp [newIntervention, isActiveFor])
    omega
  · simp only [h0, if_false]
    unfold activeCount at h0
    omega

theorem needsHasActive_step {m : Memory} (hk : KeysFresh m) (hn : NeedsHasActive m)
    (r : Request) : NeedsHasActive (step m r) := by
  intro id st hget hs
  by_cases hv : r.valid = true
  · by_cases hid : r.student_id = id
    · cases r with
      | checkin env body =>
        obtain ⟨sid, qv, fv⟩ := body
        cases qv <;> cases fv <;> try simp [Request.valid] at hv
        rename_i q f
        have hsid : sid ≠ "" := by simpa [Request.valid] using hv
        have hid' : sid = id := hid
        subst hid'
        have hr := (dailyCheckin_response env m sid q f hsid).2
        simp only [step] at hget ⊢
        rw [hr] at hget
        have hst : st.status
            = if (q.gt 7 && f.gt 60) = true then "On Track" else "Needs Intervention" := by
          have : ({ id := sid, status := if (q.gt 7 && f.gt 60) = true then "On Track"
                      else "Needs Intervention" } : Student) = st := by simpa using hget
          rw [← this]
        by_cases hsucc : (q.gt 7 && f.gt 60) = true
        · rw [hst] at hs
          simp only [hsucc, if_true] at hs
          exact absurd hs (by decide)
        · have hfail : (q.gt 7 && f.gt 60) = false := by simpa using hsucc
          exact activeCount_dailyCheckin_fail env m sid q f hsid hfail
      | assign env body =>
        obtain ⟨sid, k, task⟩ := body
        have hid' : sid = id := hid
        subst hid'
        have hv' : ¬ (sid = "" ∨ task = "") := by
          simp only [Request.valid, Bool.and_eq_true, decide_eq_true_eq] at hv
          exact fun hc => hc.elim hv.1 hv.2
        simp only [step, assignIntervention, hv', if_false] at hget
        rw [getStudent_updateStudentStatus] at hget
        have : ({ id := sid, status := "Remedial" } : Student) = st := by simpa using hget
        rw [← this] at hs
        exact absurd (show ("Remedial" : String) = "Needs Intervention" from hs) (by decide)
      | complete env body =>
        obtain ⟨sid⟩ := body
        have hid' : sid = id := hid
        subst hid'
        have hsid : sid ≠ "" := by simpa [Request.valid] using hv
        simp only [step, markComplete, hsid, if_false] at hget
        rw [getStudent_updateStudentStatus] at hget
        have : ({ id := sid, status := "On Track" } : Student) = st := by simpa using hget
        rw [← this] at hs
        exact absurd (show ("On Track" : String) = "Needs Intervention" from hs) (by decide)
    · rw [getStudent_step_of_ne m r hid] at hget
      have h1 := hn id st hget hs
      have h2 := activeCount_step_mono hk r id hid
      omega
  · have hv' : r.valid = false := by simpa using hv
    rw [step_of_invalid m r hv'] at hget ⊢
    exact hn id st hget hs

theorem needsHasActive_run (rs : List Request) :
    ∀ m : Memory, KeysFresh m → NeedsHasActive m → NeedsHasActive (run m rs) := by
  induction rs with
  | nil => intro m _ h; exact h
  | cons r rs ih =>
    intro m hk hn
    have := ih (step m r) (keysFresh_step hk r) (needsHasActive_step hk hn r)
    simpa only [run, List.foldl_cons] using this

theorem needsHasActive_empty : NeedsHasActive Memory.empty := by
  intro id st hget _
  simp [getStudent, mapGet, Memory.empty] at hget

/-! ## Interleaved check-ins in memory mode -/

theorem filter_mapSet_of_filter_nil {α κ : Type} [DecidableEq κ] (key : α → κ)
    (q : α → Bool) {l : List α} {v : α} (h : l.filter q = []) (hv : q v = true) :
    (mapSet key l v).filter q = [v] := by
  induction l with
  | nil => simp [mapSet, hv]
  | cons x xs ih =>
    have hx : q x = false := by
      cases hq : q x
      · rfl
      · simp [List.filter_cons, hq] at h
    have hxs : xs.filter q = [] := by simpa [List.filter_cons, hx] using h
    by_cases hk : key x = key v
    · simp [mapSet, hk, List.filter_cons, hv, hxs]
    · simp [mapSet, hk, List.filter_cons, hx, ih hxs]

theorem createOrGet_rows {m : Memory} {sid : String} (now : Nat) (h : AtMostOneRow sid m) :
    AtMostOneRow sid (createOrGetPendingIntervention m sid now).1 ∧
    interventionsOf (createOrGetPendingIntervention m sid now).1 sid ≠ [] := by
  unfold AtMostOneRow interventionsOf at *
  rw [createOrGet_interventions]
  rcases h with h0 | ⟨v, hv, hact⟩
  · have hc : activeCount m sid = 0 := by
      unfold activeCount
      rw [List.countP_eq_zero]
      intro a ha hact
      have : a ∈ m.interventions.filter (fun i => decide (i.student_id = sid)) := by
        rw [List.mem_filter]
        exact ⟨ha, by simpa using isActiveFor_student hact⟩
      rw [h0] at this
      exact absurd this (List.not_mem_nil _)
    simp only [hc, if_true]
    have hnew := filter_mapSet_of_filter_nil Intervention.id
      (fun i => decide (i.student_id = sid)) (v := newIntervention m sid now) h0
      (by simp [newIntervention])
    rw [hnew]
    exact ⟨Or.inr ⟨_, rfl, by simp [newIntervention, isActiveFor]⟩, by simp⟩
  · have hmem : v ∈ m.interventions := by
      have : v ∈ m.interventions.filter (fun i => decide (i.student_id = sid)) := by
        rw [hv]; exact List.mem_singleton_self v
      exact (List.mem_filter.1 this).1
    have hc : activeCount m sid ≠ 0 := by
      unfold activeCount
      intro hz
      rw [List.countP_eq_zero] at hz
      exact hz v hmem hact
    simp only [hc, if_false]
    exact ⟨Or.inr ⟨v, hv, hact⟩, by rw [hv]; simp⟩

theorem checkinStep_inv {sid : String} {m : Memory} {t : CheckinThread}
    (hrow : AtMostOneRow sid m) (hsid : t.student_id = sid)
    (hfail : (t.quiz_score.gt 7 && t.focus_minutes.gt 60) = false)
    (hdone : t.pc = 4 → interventionsOf m sid ≠ []) :
    AtMostOneRow sid (checkinStep m t).1 ∧
    (interventionsOf m sid ≠ [] → interventionsOf (checkinStep m t).1 sid ≠ []) ∧
    (checkinStep m t).2.student_id = sid ∧
    ((checkinStep m t).2.quiz_score.gt 7 && (checkinStep m t).2.focus_minutes.gt 60) = false ∧
    ((checkinStep m t).2.pc = 4 → interventionsOf (checkinStep m t).1 sid ≠ []) := by
  obtain ⟨env, sid', q, f, pc⟩ := t
  simp only at hsid hfail hdone
  subst hsid
  have same : ∀ m' : Memory, m'.interventions = m.interventions →
      AtMostOneRow sid' m' ∧ (interventionsOf m sid' ≠ [] → interventionsOf m' sid' ≠ []) := by
    intro m' h
    have : interventionsOf m' sid' = interventionsOf m sid' := by
      unfold interventionsOf; rw [h]
    unfold AtMostOneRow
    rw [this]
    exact ⟨hrow, id⟩
  rcases pc with _ | _ | _ | _ | pc
  · have := same (ensureStudent m sid') (by simp)
    exact ⟨this.1, this.2, rfl, hfail, by simp [checkinStep]⟩
  · have := same (insertDailyLog m sid' q f env.logNow) (by simp)
    exact ⟨this.1, this.2, rfl, hfail, by simp [checkinStep]⟩
  · have := same (updateStudentStatus m sid' "Needs Intervention") (by simp)
    have e : checkinStep m ⟨env, sid', q, f, 2⟩
        = (updateStudentStatus m sid' "Needs Intervention", ⟨env, sid', q, f, 3⟩) := by
      simp [checkinStep, hfail]
    rw [e]
    exact ⟨this.1, this.2, rfl, hfail,
      fun hpc => absurd (show (3 : Nat) = 4 from hpc) (by decide)⟩
  · have := createOrGet_rows env.opNow hrow
    exact ⟨this.1, fun _ => this.2, rfl, hfail, fun _ => this.2⟩
  · have := same m rfl
    exact ⟨this.1, this.2, rfl, hfail, hdone⟩

theorem interleave_inv (sid : String) (sched : List Nat) :
    ∀ (m : Memory) (ts : List CheckinThread), OneRowInv sid m ts →
      OneRowInv sid (interleave checkinStep m ts sched).1
          (interleave checkinStep m ts sched).2 ∧
        (interleave checkinStep m ts sched).2.length = ts.length := by
  induction sched with
  | nil => intro m ts h; exact ⟨h, rfl⟩
  | cons i is ih =>
    intro m ts h
    cases hi : ts[i]? with
    | none =>
      simp only [interleave, hi]
      exact ih m ts h
    | some t =>
      simp only [interleave, hi]
      have hmem : t ∈ ts := by
        rw [List.getElem?_eq_some_iff] at hi
        obtain ⟨hlt, heq⟩ := hi
        rw [← heq]
        exact List.getElem_mem _
      obtain ⟨hs, hf, hd⟩ := h.2 t hmem
      obtain ⟨s1, s2, s3, s4, s5⟩ := checkinStep_inv h.1 hs hf hd
      have hinv : OneRowInv sid (checkinStep m t).1 (ts.set i (checkinStep m t).2) := by
        refine ⟨s1, ?_⟩
        intro u hu
        rcases List.mem_or_eq_of_mem_set hu with hu | hu
        · obtain ⟨us, uf, ud⟩ := h.2 u hu
          exact ⟨us, uf, fun hpc => s2 (ud hpc)⟩
        · subst hu
          exact ⟨s3, s4, s5⟩
      have := ih (checkinStep m t).1 (ts.set i (checkinStep m t).2) hinv
      exact ⟨this.1, by rw [this.2, List.length_set]⟩

/-- Run alone, the store operations of a check-in in flight give the store of the
handler `dailyCheckin`. -/
theorem checkinStep_sequential (env : Env) (m : Memory) (sid : String) (q f : JSNumber)
    (hsid : sid ≠ "") :
    (interleave checkinStep m [⟨env, sid, q, f, 0⟩] [0, 0, 0, 0]).1
      = (dailyCheckin env m ⟨sid, .number q, .number f⟩).1 := by
  by_cases hs : (q.gt 7 && f.gt 60) = true
  · simp [interleave, checkinStep, dailyCheckin, hsid, hs]
  · have hs' : (q.gt 7 && f.gt 60) = false := by simpa using hs
    rw [dailyCheckin_fail_state env m sid q f hsid hs']
    simp [interleave, checkinStep, hs']

/-- In memory mode, `N ≥ 1` simultaneous failing check-ins of one student of
whom the store holds no intervention (an unseen student), with their store
operations interleaved in any order, leave exactly one intervention row of that
student once all of them are through. -/
theorem memory_interleaving_one_row (m : Memory) (sid : String) (ts : List CheckinThread)
    (sched : List Nat) (hN : ts ≠ [])
    (hts : ∀ t ∈ ts, t.student_id = sid ∧ t.pc = 0 ∧
      (t.quiz_score.gt 7 && t.focus_minutes.gt 60) = false)
    (hrows : interventionsOf m sid = [])
    (hdone : ∀ t ∈ (interleave checkinStep m ts sched).2, t.pc = 4) :
    (interventionsOf (interleave checkinStep m ts sched).1 sid).length = 1 := by
  have h0 : OneRowInv sid m ts := by
    refine ⟨Or.inl hrows, ?_⟩
    intro t ht
    obtain ⟨a, b, c⟩ := hts t ht
    exact ⟨a, c, fun hpc => by rw [b] at hpc; exact absurd hpc (by decide)⟩
  obtain ⟨⟨hrow, hall⟩, hlen⟩ := interleave_inv sid sched m ts h0
  have hne : (interleave checkinStep m ts sched).2 ≠ [] := by
    intro hnil
    rw [hnil] at hlen
    exact hN (List.length_eq_zero.1 hlen.symm)
  obtain ⟨t, ht⟩ := List.exists_mem_of_ne_nil _ hne
  have hnonempty := (hall t ht).2.2 (hdone t ht)
  rcases hrow with h | ⟨v, hv, _⟩
  · exact absurd h hnonempty
  · rw [hv]; rfl

/-- Two failing check-ins of "s1" on the empty store that take turns at their
store operations: both get through and one row is left. -/
theorem memory_interleaving_two_requests :
    (∀ t ∈ (interleave checkinStep Memory.empty
        [⟨⟨10, 11, .notConfigured⟩, "s1", .finite 5, .finite 30, 0⟩,
         ⟨⟨20, 21, .notConfigured⟩, "s1", .finite 5, .finite 30, 0⟩] raceSchedule).2,
      t.pc = 4) ∧
    (interventionsOf (interleave checkinStep Memory.empty
        [⟨⟨10, 11, .notConfigured⟩, "s1", .finite 5, .finite 30, 0⟩,
         ⟨⟨20, 21, .notConfigured⟩, "s1", .finite 5, .finite 30, 0⟩] raceSchedule).1
      "s1").length = 1 :=
  ⟨by decide,
   memory_interleaving_one_row Memory.empty "s1"
     [⟨⟨10, 11, .notConfigured⟩, "s1", .finite 5, .finite 30, 0⟩,
      ⟨⟨20, 21, .notConfigured⟩, "s1", .finite 5, .finite 30, 0⟩] raceSchedule
     (by decide) (by decide) (by decide) (by decide)⟩

/-! ## The claims -/

/-- C10: `ensureStudent` is an idempotent upsert on the in-memory store.  When no
student has the id, one with status 'On Track' is added at the end of the map
and nothing else changes; when one exists the whole state is unchanged, so its
status is not overwritten; and applying `ensureStudent` twice gives the state of
applying it once. -/
theorem ensureStudent_idempotent_upsert (m : Memory) (id : String) :
    (getStudent m id = none →
      ensureStudent m id =
        { m with students := m.students ++ [{ id := id, status := "On Track" }] }) ∧
    (∀ s, getStudent m id = some s →
      ensureStudent m id = m ∧ getStudent (ensureStudent m id) id = some s) ∧
    ensureStudent (ensureStudent m id) id = ensureStudent m id := by
  refine ⟨?_, ?_, ?_⟩
  · intro h
    have hh : mapHas Student.id m.students id = false := by
      rw [mapHas_eq_isSome]
      unfold getStudent at h
      simp [h]
    have hset := mapSet_of_get_none Student.id
      (m := m.students) (v := ({ id := id, status := "On Track" } : Student)) h
    simp [ensureStudent, hh, hset]
  · intro s h
    have hh : mapHas Student.id m.students id = true := by
      rw [mapHas_eq_isSome]
      unfold getStudent at h
      simp [h]
    have : ensureStudent m id = m := by simp [ensureStudent, hh]
    exact ⟨this, by rw [this]; exact h⟩
  · by_cases hh : mapHas Student.id m.students id = true
    · simp [ensureStudent, hh]
    · have hh2 : mapHas Student.id
          (mapSet Student.id m.students ({ id := id, status := "On Track" } : Student)) id
            = true := by
        rw [mapHas_eq_isSome]
        have := mapGet_mapSet_self Student.id m.students
          ({ id := id, status := "On Track" } : Student)
        simp only at this
        simp [this]
      simp [ensureStudent, hh, hh2]

/-- Witness of C10 on the empty store and on a store that already holds the
student with status 'Remedial'. -/
theorem ensureStudent_idempotent_upsert_witness :
    getStudent Memory.empty "s1" = none ∧
    ensureStudent Memory.empty "s1" =
      { Memory.empty with students := [{ id := "s1", status := "On Track" }] } ∧
    getStudent { Memory.empty with students := [{ id := "s1", status := "Remedial" }] } "s1"
      = some { id := "s1", status := "Remedial" } ∧
    ensureStudent { Memory.empty with students := [{ id := "s1", status := "Remedial" }] } "s1"
      = { Memory.empty with students := [{ id := "s1", status := "Remedial" }] } :=
  ⟨by decide,
   (ensureStudent_idempotent_upsert Memory.empty "s1").1 (by decide),
   by decide,
   ((ensureStudent_idempotent_upsert
      { Memory.empty with students := [{ id := "s1", status := "Remedial" }] } "s1").2.1
      { id := "s1", status := "Remedial" } (by decide)).1⟩

/-- C2: for every valid check-in payload (non-empty student id, both scores of
number type) and every store, the handler responds 'On Track' and leaves the
student with status 'On Track' if and only if `quiz_score > 7` and
`focus_minutes > 60`; in every other case it responds 'Pending Mentor Review'
and leaves the student with status 'Needs Intervention'. -/
theorem dailyCheckin_on_track_iff (env : Env) (m : Memory) (sid : String) (q f : JSNumber)
    (hsid : sid ≠ "") :
    ((dailyCheckin env m ⟨sid, .number q, .number f⟩).2 = .checkin "On Track" ∧
      getStudent (dailyCheckin env m ⟨sid, .number q, .number f⟩).1 sid
        = some { id := sid, status := "On Track" }
      ↔ (q.gt 7 = true ∧ f.gt 60 = true)) ∧
    (¬ (q.gt 7 = true ∧ f.gt 60 = true) →
      (dailyCheckin env m ⟨sid, .number q, .number f⟩).2 = .checkin "Pending Mentor Review" ∧
      getStudent (dailyCheckin env m ⟨sid, .number q, .number f⟩).1 sid
        = some { id := sid, status := "Needs Intervention" }) := by
  by_cases hs : (q.gt 7 && f.gt 60) = true
  · have hqf : q.gt 7 = true ∧ f.gt 60 = true := by simpa using hs
    have h1 : dailyCheckin env m ⟨sid, .number q, .number f⟩
        = (updateStudentStatus
            (insertDailyLog (ensureStudent m sid) sid q f env.logNow) sid "On Track",
           .checkin "On Track") := by
      simp [dailyCheckin, hsid, hs]
    rw [h1]
    refine ⟨⟨fun _ => hqf, fun _ => ⟨rfl, getStudent_updateStudentStatus _ _ _⟩⟩, ?_⟩
    intro hn; exact absurd hqf hn
  · have hqf : ¬ (q.gt 7 = true ∧ f.gt 60 = true) := by simpa using hs
    have h2 : (dailyCheckin env m ⟨sid, .number q, .number f⟩).2
        = .checkin "Pending Mentor Review" := by
      simp only [dailyCheckin, hsid, hs, if_false]
      cases env.webhook <;> rfl
    have h3 : getStudent (dailyCheckin env m ⟨sid, .number q, .number f⟩).1 sid
        = some { id := sid, status := "Needs Intervention" } := by
      have : (dailyCheckin env m ⟨sid, .number q, .number f⟩).1
          = (createOrGetPendingIntervention
              (updateStudentStatus (insertDailyLog (ensureStudent m sid) sid q f env.logNow)
                sid "Needs Intervention") sid env.opNow).1 := by
        simp only [dailyCheckin, hsid, hs, if_false]
        cases env.webhook <;> rfl
      rw [this, getStudent_congr (createOrGet_students _ _ _)]
      exact getStudent_updateStudentStatus _ _ _
    refine ⟨⟨fun h => ?_, fun h => absurd h hqf⟩, fun _ => ⟨h2, h3⟩⟩
    rw [h2] at h
    exact absurd h.1 (by decide)

/-- Witness of C2 at the boundary `quiz_score = 7`, `focus_minutes = 61`. -/
theorem dailyCheckin_on_track_iff_witness :
    ("s1" : String) ≠ "" ∧
    ¬ ((JSNumber.finite 7).gt 7 = true ∧ (JSNumber.finite 61).gt 60 = true) ∧
    (dailyCheckin ⟨1, 2, .notConfigured⟩ Memory.empty
        ⟨"s1", .number (.finite 7), .number (.finite 61)⟩).2
      = .checkin "Pending Mentor Review" :=
  ⟨by decide, by decide,
   ((dailyCheckin_on_track_iff ⟨1, 2, .notConfigured⟩ Memory.empty "s1"
      (.finite 7) (.finite 61) (by decide)).2 (by decide)).1⟩

/-- C4: a check-in with `quiz_score > 7` and `focus_minutes > 60` leaves the
intervention map as it was: no intervention is created (the id counter does not
move either) and no stored intervention changes. -/
theorem dailyCheckin_success_keeps_interventions (env : Env) (m : Memory) (sid : String)
    (q f : JSNumber) (hq : q.gt 7 = true) (hf : f.gt 60 = true) :
    (dailyCheckin env m ⟨sid, .number q, .number f⟩).1.interventions = m.interventions ∧
    (dailyCheckin env m ⟨sid, .number q, .number f⟩).1.interventionAutoId
      = m.interventionAutoId := by
  by_cases hsid : sid = ""
  · simp [dailyCheckin, hsid]
  · simp [dailyCheckin, hsid, hq, hf]

/-- Witness of C4 on a store that holds an assigned intervention of the student. -/
theorem dailyCheckin_success_keeps_interventions_witness :
    (JSNumber.finite 8).gt 7 = true ∧ (JSNumber.finite 61).gt 60 = true ∧
    (dailyCheckin ⟨5, 6, .succeeds⟩
        { students := [⟨"s1", "Remedial"⟩],
          interventions := [⟨1, "s1", some "Read ch.3", "assigned", 3, none⟩],
          daily_logs := [], interventionAutoId := 2 }
        ⟨"s1", .number (.finite 8), .number (.finite 61)⟩).1.interventions
      = [⟨1, "s1", some "Read ch.3", "assigned", 3, none⟩] :=
  ⟨by decide, by decide,
   (dailyCheckin_success_keeps_interventions ⟨5, 6, .succeeds⟩ _ "s1"
      (.finite 8) (.finite 61) (by decide) (by decide)).1⟩

/-- C9: when the student has no active (pending or assigned) intervention, a
mark-complete request leaves the intervention map unchanged and leaves the
student, created if absent, with status 'On Track'. -/
theorem markComplete_without_active (env : Env) (m : Memory) (sid : String)
    (hsid : sid ≠ "") (h : getActiveIntervention m sid = none) :
    (markComplete env m ⟨sid⟩).1.interventions = m.interventions ∧
    getStudent (markComplete env m ⟨sid⟩).1 sid = some { id := sid, status := "On Track" } ∧
    (markComplete env m ⟨sid⟩).2 = .completed "On Track" := by
  have hf : m.interventions.find? (isActiveFor sid) = none := h
  have hc : completeActiveIntervention (ensureStudent m sid) sid env.opNow
      = (ensureStudent m sid, none) := by
    simp [completeActiveIntervention, hf]
  refine ⟨?_, ?_, ?_⟩
  · simp [markComplete, hsid, hc]
  · simp only [markComplete, hsid, if_false, hc]
    exact getStudent_updateStudentStatus _ _ _
  · simp [markComplete, hsid]

/-- Witness of C9 on the empty store: the student is created. -/
theorem markComplete_without_active_witness :
    ("s1" : String) ≠ "" ∧ getActiveIntervention Memory.empty "s1" = none ∧
    (markComplete ⟨1, 2, .notConfigured⟩ Memory.empty ⟨"s1"⟩).1.interventions = [] ∧
    getStudent (markComplete ⟨1, 2, .notConfigured⟩ Memory.empty ⟨"s1"⟩).1 "s1"
      = some { id := "s1", status := "On Track" } :=
  ⟨by decide, by decide,
   (markComplete_without_active ⟨1, 2, .notConfigured⟩ Memory.empty "s1"
      (by decide) (by decide)).1,
   (markComplete_without_active ⟨1, 2, .notConfigured⟩ Memory.empty "s1"
      (by decide) (by decide)).2.1⟩

/-- C3: in a store where the student has at most one active intervention, after
`n ≥ 1` consecutive failing check-ins of the student (the list `c :: cs`)
exactly one active intervention exists for the student; the first check-in
writes a new intervention (status 'pending', task null) exactly when none was
active and otherwise leaves the map alone, and after every later check-in the
intervention map is still the one the first check-in left. -/
theorem failing_checkins_one_active (m : Memory) (sid : String) (hsid : sid ≠ "")
    (c : Env × JSNumber × JSNumber) (cs : List (Env × JSNumber × JSNumber))
    (hc : failing c = true) (hcs : ∀ x ∈ cs, failing x = true)
    (h1 : activeCount m sid ≤ 1) :
    activeCount (run m ((c :: cs).map (checkinOf sid))) sid = 1 ∧
    (step m (checkinOf sid c)).interventions =
      (if activeCount m sid = 0 then
        mapSet Intervention.id m.interventions
          { id := m.interventionAutoId, student_id := sid, task := none, status := "pending",
            created_at := c.1.opNow, completed_at := none }
       else m.interventions) ∧
    ∀ k, k ≤ cs.length →
      (run m ((c :: cs.take k).map (checkinOf sid))).interventions
        = (step m (checkinOf sid c)).interventions := by
  have hc0 : (c.2.1.gt 7 && c.2.2.gt 60) = false := by
    rw [failing, Bool.not_eq_true'] at hc
    exact hc
  have hstep : (step m (checkinOf sid c)).interventions =
      (if activeCount m sid = 0 then
        mapSet Intervention.id m.interventions (newIntervention m sid c.1.opNow)
       else m.interventions) := by
    simp only [step, checkinOf]
    exact dailyCheckin_fail_interventions c.1 m sid c.2.1 c.2.2 hsid hc0
  have hone : activeCount (step m (checkinOf sid c)) sid = 1 := by
    unfold activeCount at h1 ⊢
    rw [hstep]
    by_cases h0 : m.interventions.countP (isActiveFor sid) = 0
    · simp only [activeCount, h0, if_true]
      exact countP_mapSet_of_countP_zero _ h0 (by simp [newIntervention, isActiveFor])
    · simp only [activeCount, h0, if_false]; omega
  have hne : activeCount (step m (checkinOf sid c)) sid ≠ 0 := by omega
  refine ⟨?_, hstep, ?_⟩
  · have := run_failing_keeps_interventions sid hsid cs hcs _ hne
    simp only [List.map_cons, run, List.foldl_cons] at this ⊢
    unfold activeCount at hone ⊢
    rw [this]; exact hone
  · intro k _
    have := run_failing_keeps_interventions sid hsid (cs.take k)
      (fun x hx => hcs x (List.mem_of_mem_take hx)) _ hne
    simpa only [List.map_cons, run, List.foldl_cons] using this

/-- Witness of C3: three failing check-ins on the empty store. -/
theorem failing_checkins_one_active_witness :
    ("s1" : String) ≠ "" ∧
    activeCount Memory.empty "s1" ≤ 1 ∧
    activeCount (run Memory.empty
      ((((⟨1, 2, .notConfigured⟩ : Env), JSNumber.finite 5, JSNumber.finite 30) ::
        [((⟨3, 4, .succeeds⟩ : Env), JSNumber.finite 7, JSNumber.finite 90),
         ((⟨5, 6, .throws⟩ : Env), JSNumber.finite 9, JSNumber.finite 60)]).map
        (checkinOf "s1"))) "s1" = 1 :=
  ⟨by decide, by decide,
   (failing_checkins_one_active Memory.empty "s1" (by decide)
      ((⟨1, 2, .notConfigured⟩ : Env), JSNumber.finite 5, JSNumber.finite 30)
      [((⟨3, 4, .succeeds⟩ : Env), JSNumber.finite 7, JSNumber.finite 90),
       ((⟨5, 6, .throws⟩ : Env), JSNumber.finite 9, JSNumber.finite 60)]
      (by decide) (by decide) (by decide)).1⟩

/-- C1, as stated, fails: from the empty store four valid requests of one
student (failing check-in, mark-complete, failing check-in, assign naming the
completed intervention 1) leave that student with two active interventions. -/
theorem at_most_one_active_fails :
    (∀ r ∈ reactivatingRequests, r.valid = true) ∧
    activeCount (run Memory.empty reactivatingRequests) "s1" = 2 ∧
    ¬ (∀ rs : List Request, (∀ r ∈ rs, r.valid = true) →
        ∀ sid, activeCount (run Memory.empty rs) sid ≤ 1) := by
  refine ⟨by decide, by decide, ?_⟩
  intro h
  have := h reactivatingRequests (by decide) "s1"
  revert this
  decide

/-- C1, amended: every store reached from the empty store by a sequence of
check-in, assign and mark-complete requests (valid ones, and rejected ones as
well, which change nothing), none of which is an assign whose `intervention_id`
names a stored intervention that is not active while its student has an active
one, holds at most one pending or assigned intervention per student. -/
theorem at_most_one_active_reachable (rs : List Request)
    (hg : neverActivatesSecond Memory.empty rs = true) (sid : String) :
    activeCount (run Memory.empty rs) sid ≤ 1 :=
  (run_preserves rs Memory.empty empty_inv hg).2 sid

/-- Witness of the amended C1: check-in, assign by the id of the pending
intervention, mark-complete, check-in. -/
theorem at_most_one_active_reachable_witness :
    neverActivatesSecond Memory.empty assignByIdRequests = true ∧
    activeCount (run Memory.empty assignByIdRequests) "s1" ≤ 1 :=
  ⟨by decide, at_most_one_active_reachable assignByIdRequests (by decide) "s1"⟩

/-- C5, as stated, fails: in the store that holds the pending intervention 1
of student "b", a valid assign for student "a" that names intervention 1
succeeds and writes the task onto the intervention of "b"; get-status of "a"
then reads 'Remedial' with task null, not the task just assigned. -/
theorem assign_then_status_fails :
    (assignIntervention ⟨20, 21, .notConfigured⟩ storeOfB ⟨"a", some 1, "T"⟩).2
      = .assigned ⟨1, "b", some "T", "assigned", 11, none⟩ ∧
    getStatus (assignIntervention ⟨20, 21, .notConfigured⟩ storeOfB ⟨"a", some 1, "T"⟩).1 "a"
      = .studentStatus "a" "Remedial" none ∧
    getStatus (assignIntervention ⟨20, 21, .notConfigured⟩ storeOfB ⟨"a", some 1, "T"⟩).1 "a"
      ≠ .studentStatus "a" "Remedial" (some "T") := by
  decide

/-- C5, amended: for every store, every non-empty student id and task, and every
`intervention_id` that is missing, or that matches a stored intervention of that
student while no other intervention of the student is pending or assigned, the
assign request succeeds and get-status of the student then returns status
'Remedial' and the task just assigned. -/
theorem assign_then_status (env : Env) (m : Memory) (sid : String) (k : Option Nat)
    (task : String) (hsid : sid ≠ "") (htask : task ≠ "")
    (hk : ownTarget m sid k = true) :
    (∃ i : Intervention, (assignIntervention env m ⟨sid, k, task⟩).2 = .assigned i ∧
      i.task = some task ∧ i.status = "assigned") ∧
    getStatus (assignIntervention env m ⟨sid, k, task⟩).1 sid
      = .studentStatus sid "Remedial" (some task) := by
  have hv : ¬ (sid = "" ∨ task = "") := by simp [hsid, htask]
  refine ⟨⟨(assignInterventionTask (ensureStudent m sid) sid k task env.opNow).2,
    by simp only [assignIntervention, hv, if_false], rfl, rfl⟩, ?_⟩
  have hk1 : targetsStudent (ensureStudent m sid) sid k = true := by
    rw [targetsStudent_congr (ensureStudent_interventions m sid)]
    exact targetsStudent_of_ownTarget m sid k hk
  obtain ⟨t, ht, htt⟩ :=
    assignInterventionTask_active (ensureStudent m sid) sid k task env.opNow hk1
  have hst : getStudent (assignIntervention env m ⟨sid, k, task⟩).1 sid
      = some { id := sid, status := "Remedial" } := by
    simp only [assignIntervention, hv, if_false]
    exact getStudent_updateStudentStatus _ _ _
  have hact : getActiveIntervention (assignIntervention env m ⟨sid, k, task⟩).1 sid
      = some t := by
    simp only [assignIntervention, hv, if_false]
    rw [getActiveIntervention_congr (updateStudentStatus_interventions _ _ _)]
    exact ht
  simp only [getStatus, hst, hact, htt]

/-- Witness of the amended C5: in the store that holds the pending intervention
1 of "s1", an assign for "s1" that names intervention 1. -/
theorem assign_then_status_witness :
    ("s1" : String) ≠ "" ∧ ("Read ch.3" : String) ≠ "" ∧
    ownTarget storeOnePending "s1" (some 1) = true ∧
    getStatus (assignIntervention ⟨20, 21, .notConfigured⟩ storeOnePending
      ⟨"s1", some 1, "Read ch.3"⟩).1 "s1"
      = .studentStatus "s1" "Remedial" (some "Read ch.3") :=
  ⟨by decide, by decide, by decide,
   (assign_then_status ⟨20, 21, .notConfigured⟩ storeOnePending "s1" (some 1) "Read ch.3"
      (by decide) (by decide) (by decide)).2⟩

/-- C6 at a failing input: in the store reached from the empty store by five
valid requests, student "s1" has two assigned interventions (tasks "A" and "B").
Mark-complete completes only the first one in the map; get-status then still
reads the task "B" of the second, which remains active. -/
theorem markComplete_leaves_second_active :
    (∀ r ∈ twoAssignedRequests, r.valid = true) ∧
    storeTwoAssigned.interventions =
      [⟨1, "s1", some "A", "assigned", 11, some 21⟩,
       ⟨2, "s1", some "B", "assigned", 31, none⟩] ∧
    (markComplete ⟨60, 61, .notConfigured⟩ storeTwoAssigned ⟨"s1"⟩).2
      = .completed "On Track" ∧
    (markComplete ⟨60, 61, .notConfigured⟩ storeTwoAssigned ⟨"s1"⟩).1.interventions =
      [⟨1, "s1", some "A", "completed", 11, some 61⟩,
       ⟨2, "s1", some "B", "assigned", 31, none⟩] ∧
    getStatus (markComplete ⟨60, 61, .notConfigured⟩ storeTwoAssigned ⟨"s1"⟩).1 "s1"
      = .studentStatus "s1" "On Track" (some "B") := by
  decide

/-- C7 at a failing input: an assign whose `intervention_id` 7 matches no stored
intervention falls through to `createOrGetPendingIntervention`.  On the empty
store it creates intervention 1 with the task; on a store that holds the pending
intervention 1 of the student it rewrites that intervention.  The student's
status is 'Remedial' in both. -/
theorem assign_unmatched_id_writes :
    mapGet Intervention.id Memory.empty.interventions 7 = none ∧
    (assignIntervention ⟨20, 21, .notConfigured⟩ Memory.empty ⟨"s1", some 7, "T"⟩).1
      = { students := [⟨"s1", "Remedial"⟩],
          interventions := [⟨1, "s1", some "T", "assigned", 21, none⟩],
          daily_logs := [], interventionAutoId := 2 } ∧
    mapGet Intervention.id storeOnePending.interventions 7 = none ∧
    storeOnePending.interventions = [⟨1, "s1", none, "pending", 11, none⟩] ∧
    (assignIntervention ⟨20, 21, .notConfigured⟩ storeOnePending
        ⟨"s1", some 7, "T"⟩).1.interventions
      = [⟨1, "s1", some "T", "assigned", 11, none⟩] ∧
    getStudent (assignIntervention ⟨20, 21, .notConfigured⟩ storeOnePending
        ⟨"s1", some 7, "T"⟩).1 "s1" = some ⟨"s1", "Remedial"⟩ := by
  decide

/-- C8 at a failing input: in the store reached from the empty store by
`reactivatingRequests`, student "s1" has the active interventions 1 (created at
11) and 2 (created at 31).  `createOrGetPendingIntervention` and
`getActiveIntervention` return intervention 1, the first in the map and the
earliest created, and create nothing. -/
theorem createOrGet_returns_oldest_active :
    (∀ r ∈ reactivatingRequests, r.valid = true) ∧
    storeTwoActive.interventions =
      [⟨1, "s1", some "A", "assigned", 11, some 21⟩,
       ⟨2, "s1", none, "pending", 31, none⟩] ∧
    activeCount storeTwoActive "s1" = 2 ∧
    createOrGetPendingIntervention storeTwoActive "s1" 70
      = (storeTwoActive, ⟨1, "s1", some "A", "assigned", 11, some 21⟩) ∧
    getActiveIntervention storeTwoActive "s1"
      = some ⟨1, "s1", some "A", "assigned", 11, some 21⟩ := by
  decide

/-- C11: a request that fails validation is answered 400 'Invalid payload' and
the whole store (students, interventions, daily logs, id counter) is the one
before the request.  That is the case for a check-in whose `student_id` is
missing or falsy or whose `quiz_score` or `focus_minutes` is not of number type,
for an assign whose `student_id` or `task` is missing or falsy, and for a
mark-complete whose `student_id` is missing or falsy. -/
theorem invalid_payload_leaves_store (env : Env) (m : Memory) :
    (∀ body : CheckinBody,
      body.student_id = "" ∨ body.quiz_score.isNumber = false ∨
        body.focus_minutes.isNumber = false →
      dailyCheckin env m body = (m, .invalidPayload)) ∧
    (∀ body : AssignBody, body.student_id = "" ∨ body.task = "" →
      assignIntervention env m body = (m, .invalidPayload)) ∧
    (∀ body : CompleteBody, body.student_id = "" →
      markComplete env m body = (m, .invalidPayload)) := by
  refine ⟨?_, ?_, ?_⟩
  · rintro ⟨sid, qv, fv⟩ h
    cases qv <;> cases fv <;> simp_all [dailyCheckin, JSValue.isNumber]
  · rintro ⟨sid, k, task⟩ h
    simp only [assignIntervention]
    rw [if_pos h]
  · rintro ⟨sid⟩ h
    simp only [markComplete]
    rw [if_pos h]

/-- Witness of C11: a check-in with `quiz_score: "9"` (a string) on a store that
holds a student. -/
theorem invalid_payload_leaves_store_witness :
    (JSValue.string "9").isNumber = false ∧
    dailyCheckin ⟨1, 2, .succeeds⟩ { Memory.empty with students := [⟨"s1", "Remedial"⟩] }
        ⟨"s1", .string "9", .number (.finite 90)⟩
      = ({ Memory.empty with students := [⟨"s1", "Remedial"⟩] }, .invalidPayload) :=
  ⟨by decide,
   (invalid_payload_leaves_store ⟨1, 2, .succeeds⟩
      { Memory.empty with students := [⟨"s1", "Remedial"⟩] }).1
      ⟨"s1", .string "9", .number (.finite 90)⟩ (Or.inr (Or.inl (by decide)))⟩

/-- C14: a valid check-in appends exactly one entry at the end of the daily log;
the entry carries the `student_id`, `quiz_score` and `focus_minutes` of the
request, and its status is 'success' exactly when the response is 'On Track' and
'failed' exactly when the response is 'Pending Mentor Review'.  The entries
before it are unchanged.  Assign and mark-complete leave the log as it was
(get-status only reads the store). -/
theorem daily_log_append_only (env : Env) (m : Memory) :
    (∀ (sid : String) (q f : JSNumber), sid ≠ "" →
      ∃ entry : DailyLog,
        (dailyCheckin env m ⟨sid, .number q, .number f⟩).1.daily_logs
          = m.daily_logs ++ [entry] ∧
        entry.student_id = sid ∧ entry.quiz_score = q ∧ entry.focus_minutes = f ∧
        (entry.status = "success" ↔
          (dailyCheckin env m ⟨sid, .number q, .number f⟩).2 = .checkin "On Track") ∧
        (entry.status = "failed" ↔
          (dailyCheckin env m ⟨sid, .number q, .number f⟩).2
            = .checkin "Pending Mentor Review")) ∧
    (∀ body : AssignBody, (assignIntervention env m body).1.daily_logs = m.daily_logs) ∧
    (∀ body : CompleteBody, (markComplete env m body).1.daily_logs = m.daily_logs) := by
  refine ⟨?_, ?_, ?_⟩
  · intro sid q f hsid
    refine ⟨⟨sid, q, f, if q.gt 7 && f.gt 60 then "success" else "failed", env.logNow⟩,
      ?_, rfl, rfl, rfl, ?_⟩
    · by_cases hs : (q.gt 7 && f.gt 60) = true
      · simp [dailyCheckin, hsid, hs, insertDailyLog]
      · have hs' : (q.gt 7 && f.gt 60) = false := by simpa using hs
        rw [dailyCheckin_fail_state env m sid q f hsid hs']
        simp [insertDailyLog, hs']
    · have hr := (dailyCheckin_response env m sid q f hsid).1
      by_cases hs : (q.gt 7 && f.gt 60) = true
      · simp only [hs, if_true] at hr ⊢
        rw [hr]
        exact ⟨by simp, by decide⟩
      · simp only [hs] at hr ⊢
        rw [hr]
        refine ⟨?_, by simp⟩
        constructor
        · intro h; exact absurd h (by decide)
        · intro h; exact absurd h (by decide)
  · rintro ⟨sid, k, task⟩
    by_cases hv : sid = "" ∨ task = ""
    · simp [assignIntervention, hv]
    · simp [assignIntervention, hv]
  · rintro ⟨sid⟩
    by_cases hv : sid = ""
    · simp [markComplete, hv]
    · simp [markComplete, hv]

/-- Witness of C14: a failing check-in on the empty store. -/
theorem daily_log_append_only_witness :
    ("s1" : String) ≠ "" ∧
    ∃ entry : DailyLog,
      (dailyCheckin ⟨1, 2, .succeeds⟩ Memory.empty
          ⟨"s1", .number (.finite 5), .number (.finite 30)⟩).1.daily_logs
        = Memory.empty.daily_logs ++ [entry] ∧
      entry.student_id = "s1" ∧ entry.quiz_score = .finite 5 ∧
      entry.focus_minutes = .finite 30 ∧
      (entry.status = "success" ↔
        (dailyCheckin ⟨1, 2, .succeeds⟩ Memory.empty
          ⟨"s1", .number (.finite 5), .number (.finite 30)⟩).2 = .checkin "On Track") ∧
      (entry.status = "failed" ↔
        (dailyCheckin ⟨1, 2, .succeeds⟩ Memory.empty
          ⟨"s1", .number (.finite 5), .number (.finite 30)⟩).2
          = .checkin "Pending Mentor Review") :=
  ⟨by decide,
   (daily_log_append_only ⟨1, 2, .succeeds⟩ Memory.empty).1 "s1" (.finite 5) (.finite 30)
     (by decide)⟩

/-- C18: the response of a check-in and the store it leaves do not depend on the
webhook: they are the same when no URL is configured, when the call succeeds and
when the call throws.  For a failing valid check-in the response is
'Pending Mentor Review' in all three cases, never an error. -/
theorem webhook_isolated (logNow opNow : Nat) (w : Webhook) (m : Memory)
    (body : CheckinBody) :
    dailyCheckin ⟨logNow, opNow, w⟩ m body
      = dailyCheckin ⟨logNow, opNow, .notConfigured⟩ m body ∧
    (∀ (sid : String) (q f : JSNumber), sid ≠ "" → (q.gt 7 && f.gt 60) = false →
      (dailyCheckin ⟨logNow, opNow, w⟩ m ⟨sid, .number q, .number f⟩).2
        = .checkin "Pending Mentor Review") := by
  refine ⟨?_, ?_⟩
  · obtain ⟨sid, qv, fv⟩ := body
    cases qv <;> cases fv <;> try rfl
    rename_i q f
    simp only [dailyCheckin]
    by_cases hsid : sid = ""
    · simp [hsid]
    · by_cases hs : (q.gt 7 && f.gt 60) = true
      · simp [hsid, hs]
      · simp only [hsid, hs, if_false]
        cases w <;> rfl
  · intro sid q f hsid hs
    simp only [dailyCheckin, hsid, hs, if_false]
    cases w <;> rfl

/-- Witness of C18: a failing check-in whose webhook call throws. -/
theorem webhook_isolated_witness :
    ("s1" : String) ≠ "" ∧
    ((JSNumber.finite 5).gt 7 && (JSNumber.finite 30).gt 60) = false ∧
    (dailyCheckin ⟨1, 2, .throws⟩ Memory.empty
        ⟨"s1", .number (.finite 5), .number (.finite 30)⟩).2
      = .checkin "Pending Mentor Review" :=
  ⟨by decide, by decide,
   (webhook_isolated 1 2 .throws Memory.empty
      ⟨"s1", .number (.finite 5), .number (.finite 30)⟩).2 "s1" (.finite 5) (.finite 30)
      (by decide) (by decide)⟩

/-- C15: from the empty store, whatever the clock readings and the webhook,
check-in("s1", 5, 30) answers 'Pending Mentor Review'; get-status("s1") then
reads 'Needs Intervention' with task null; assign("s1", 'Read ch.3') without
`intervention_id` answers with intervention 1 assigned 'Read ch.3'; get-status
reads 'Remedial' with task 'Read ch.3'; mark-complete("s1") answers 'On Track';
get-status reads 'On Track' with task null. -/
theorem end_to_end_scenario (e1 e2 e3 : Env) :
    (scenarioCheckin e1).2 = .checkin "Pending Mentor Review" ∧
    getStatus (scenarioCheckin e1).1 "s1" = .studentStatus "s1" "Needs Intervention" none ∧
    (scenarioAssign e1 e2).2
      = .assigned ⟨1, "s1", some "Read ch.3", "assigned", e1.opNow, none⟩ ∧
    getStatus (scenarioAssign e1 e2).1 "s1"
      = .studentStatus "s1" "Remedial" (some "Read ch.3") ∧
    (scenarioComplete e1 e2 e3).2 = .completed "On Track" ∧
    getStatus (scenarioComplete e1 e2 e3).1 "s1" = .studentStatus "s1" "On Track" none := by
  have h1 : scenarioCheckin e1 =
      ({ students := [⟨"s1", "Needs Intervention"⟩],
         interventions := [⟨1, "s1", none, "pending", e1.opNow, none⟩],
         daily_logs := [⟨"s1", .finite 5, .finite 30, "failed", e1.logNow⟩],
         interventionAutoId := 2 }, .checkin "Pending Mentor Review") := by
    have h5 : (JSNumber.finite 5).gt 7 = false := by decide
    obtain ⟨l1, o1, w1⟩ := e1
    cases w1 <;>
      simp [scenarioCheckin, dailyCheckin, ensureStudent, insertDailyLog, updateStudentStatus,
        createOrGetPendingIntervention, mapHas, mapGet, mapSet, Memory.empty, h5,
        isActiveFor]
  have h2 : scenarioAssign e1 e2 =
      ({ students := [⟨"s1", "Remedial"⟩],
         interventions := [⟨1, "s1", some "Read ch.3", "assigned", e1.opNow, none⟩],
         daily_logs := [⟨"s1", .finite 5, .finite 30, "failed", e1.logNow⟩],
         interventionAutoId := 2 },
       .assigned ⟨1, "s1", some "Read ch.3", "assigned", e1.opNow, none⟩) := by
    simp [scenarioAssign, h1, assignIntervention, assignInterventionTask, ensureStudent,
      updateStudentStatus, createOrGetPendingIntervention, mapHas, mapGet, mapSet, isActiveFor]
  have h3 : scenarioComplete e1 e2 e3 =
      ({ students := [⟨"s1", "On Track"⟩],
         interventions :=
           [⟨1, "s1", some "Read ch.3", "completed", e1.opNow, some e3.opNow⟩],
         daily_logs := [⟨"s1", .finite 5, .finite 30, "failed", e1.logNow⟩],
         interventionAutoId := 2 }, .completed "On Track") := by
    simp [scenarioComplete, h2, markComplete, completeActiveIntervention, ensureStudent,
      updateStudentStatus, mapHas, mapGet, mapSet, isActiveFor]
  rw [h1, h2, h3]
  simp [getStatus, getStudent, getActiveIntervention, mapGet, isActiveFor]

/-- C16: in the store reached from the empty store by any sequence of requests,
get-status of an id answers 404 'Student not found' if and only if no earlier
valid check-in, assign or mark-complete request had that id as its `student_id`.
Otherwise it answers with the id, the status of the student and the task of the
student's active intervention (null when there is none).  No request removes a
student from any store. -/
theorem getStatus_not_found_iff (rs : List Request) (id : String) :
    (getStatus (run Memory.empty rs) id = .notFound ↔
      ∀ r ∈ rs, r.valid = true → r.student_id ≠ id) ∧
    (∀ st : Student, getStudent (run Memory.empty rs) id = some st →
      getStatus (run Memory.empty rs) id
        = .studentStatus id st.status
            ((getActiveIntervention (run Memory.empty rs) id).bind Intervention.task)) ∧
    (∀ (m : Memory) (r : Request) (sid : String),
      (getStudent m sid).isSome = true → (getStudent (step m r) sid).isSome = true) := by
  refine ⟨?_, ?_, ?_⟩
  · have h := getStudent_run_none_iff rs id Memory.empty
    have h0 : getStudent Memory.empty id = none := rfl
    rw [← (show (getStudent (run Memory.empty rs) id = none ↔ _) from
      h.trans ⟨fun x => x.2, fun x => ⟨h0, x⟩⟩)]
    unfold getStatus
    cases hg : getStudent (run Memory.empty rs) id <;> simp
  · intro st hst
    unfold getStatus
    rw [hst]
    cases getActiveIntervention (run Memory.empty rs) id <;> rfl
  · intro m r sid hsome
    cases hn : getStudent (step m r) sid with
    | some _ => rfl
    | none =>
      have := ((getStudent_step_none_iff m r sid).1 hn).1
      rw [this] at hsome
      exact absurd hsome (by simp)

/-- Witness of C16: after a check-in of "s1" and a rejected check-in of "s2",
get-status knows "s1" and answers 404 for "s2". -/
theorem getStatus_not_found_iff_witness :
    getStatus (run Memory.empty
      [.checkin ⟨1, 2, .succeeds⟩ ⟨"s1", .number (.finite 5), .number (.finite 30)⟩,
       .checkin ⟨3, 4, .succeeds⟩ ⟨"s2", .string "9", .number (.finite 30)⟩]) "s2"
      = .notFound ∧
    getStatus (run Memory.empty
      [.checkin ⟨1, 2, .succeeds⟩ ⟨"s1", .number (.finite 5), .number (.finite 30)⟩,
       .checkin ⟨3, 4, .succeeds⟩ ⟨"s2", .string "9", .number (.finite 30)⟩]) "s1"
      = .studentStatus "s1" "Needs Intervention" none :=
  ⟨(getStatus_not_found_iff
      [.checkin ⟨1, 2, .succeeds⟩ ⟨"s1", .number (.finite 5), .number (.finite 30)⟩,
       .checkin ⟨3, 4, .succeeds⟩ ⟨"s2", .string "9", .number (.finite 30)⟩] "s2").1.2
      (by decide),
   (getStatus_not_found_iff
      [.checkin ⟨1, 2, .succeeds⟩ ⟨"s1", .number (.finite 5), .number (.finite 30)⟩,
       .checkin ⟨3, 4, .succeeds⟩ ⟨"s2", .string "9", .number (.finite 30)⟩] "s1").2.1
      ⟨"s1", "Needs Intervention"⟩ (by decide)⟩

/-- C12, as stated, fails: in the store that holds the pending intervention 1 of
student "b", a valid assign for the distinct student "a" that names
intervention 1 rewrites the intervention of "b", and get-status of "b" changes
from task null to task "T". -/
theorem other_student_untouched_fails :
    (Request.assign ⟨20, 21, .notConfigured⟩ ⟨"a", some 1, "T"⟩).valid = true ∧
    ("a" : String) ≠ "b" ∧
    interventionsOf storeOfB "b" = [⟨1, "b", none, "pending", 11, none⟩] ∧
    interventionsOf (step storeOfB (.assign ⟨20, 21, .notConfigured⟩ ⟨"a", some 1, "T"⟩)) "b"
      = [⟨1, "b", some "T", "assigned", 11, none⟩] ∧
    getStatus storeOfB "b" = .studentStatus "b" "Needs Intervention" none ∧
    getStatus (step storeOfB (.assign ⟨20, 21, .notConfigured⟩ ⟨"a", some 1, "T"⟩)) "b"
      = .studentStatus "b" "Needs Intervention" (some "T") := by
  decide

/-- C12, amended: in a store whose intervention keys are distinct and below the
id counter (every store reached from the empty one is such a store), a check-in,
a mark-complete, or an assign whose `intervention_id` does not name a stored
intervention of student `b`, made for a student other than `b`, leaves the
student record of `b` and the interventions of `b` as they were, so get-status
of `b` answers the same before and after. -/
theorem other_student_untouched (m : Memory) (hk : KeysFresh m) (r : Request) (b : String)
    (hab : r.student_id ≠ b) (hn : namesInterventionOf m b r = false) :
    getStudent (step m r) b = getStudent m b ∧
    interventionsOf (step m r) b = interventionsOf m b ∧
    getStatus (step m r) b = getStatus m b :=
  ⟨getStudent_step_of_ne m r hab, interventionsOf_step hk r b hab hn,
   getStatus_congr (getStudent_step_of_ne m r hab) (interventionsOf_step hk r b hab hn)⟩

/-- Witness of the amended C12: in the store that holds the pending intervention
of "b", an assign for "a" that names the unused id 7. -/
theorem other_student_untouched_witness :
    KeysFresh storeOfB ∧
    (Request.assign ⟨20, 21, .notConfigured⟩ ⟨"a", some 7, "T"⟩).student_id ≠ "b" ∧
    namesInterventionOf storeOfB "b"
      (.assign ⟨20, 21, .notConfigured⟩ ⟨"a", some 7, "T"⟩) = false ∧
    getStatus (step storeOfB (.assign ⟨20, 21, .notConfigured⟩ ⟨"a", some 7, "T"⟩)) "b"
      = getStatus storeOfB "b" :=
  ⟨keysFresh_reachable
      [.checkin ⟨10, 11, .notConfigured⟩ ⟨"b", .number (.finite 5), .number (.finite 30)⟩],
   by decide, by decide,
   (other_student_untouched storeOfB
      (keysFresh_reachable
        [.checkin ⟨10, 11, .notConfigured⟩ ⟨"b", .number (.finite 5), .number (.finite 30)⟩])
      (.assign ⟨20, 21, .notConfigured⟩ ⟨"a", some 7, "T"⟩) "b"
      (by decide) (by decide)).2.2⟩

/-- C19: in every store reached from the empty store by check-in, assign and
mark-complete requests, a student whose status is 'Needs Intervention' has at
least one pending or assigned intervention. -/
theorem needs_intervention_has_active (rs : List Request) (id : String) (st : Student)
    (hget : getStudent (run Memory.empty rs) id = some st)
    (hs : st.status = "Needs Intervention") :
    1 ≤ activeCount (run Memory.empty rs) id :=
  needsHasActive_run rs Memory.empty empty_inv.1 needsHasActive_empty id st hget hs

/-- Witness of C19: after `reactivatingRequests` followed by a failing check-in,
"s1" needs intervention. -/
theorem needs_intervention_has_active_witness :
    getStudent (run Memory.empty (reactivatingRequests ++
      [.checkin ⟨50, 51, .notConfigured⟩ ⟨"s1", .number (.finite 5), .number (.finite 30)⟩]))
      "s1" = some ⟨"s1", "Needs Intervention"⟩ ∧
    1 ≤ activeCount (run Memory.empty (reactivatingRequests ++
      [.checkin ⟨50, 51, .notConfigured⟩ ⟨"s1", .number (.finite 5), .number (.finite 30)⟩]))
      "s1" :=
  ⟨by decide,
   needs_intervention_has_active _ "s1" ⟨"s1", "Needs Intervention"⟩ (by decide) rfl⟩

/-- C20, as stated, fails: intervention 1 of "s1" is completed (at 21); a valid
assign that names it by its id sets its status back to 'assigned' and writes the
task "A". -/
theorem completed_stays_completed_fails :
    mapGet Intervention.id storeOneCompleted.interventions 1
      = some ⟨1, "s1", none, "completed", 11, some 21⟩ ∧
    (Request.assign ⟨40, 41, .notConfigured⟩ ⟨"s1", some 1, "A"⟩).valid = true ∧
    mapGet Intervention.id
      (step storeOneCompleted
        (.assign ⟨40, 41, .notConfigured⟩ ⟨"s1", some 1, "A"⟩)).interventions 1
      = some ⟨1, "s1", some "A", "assigned", 11, some 21⟩ := by
  decide

/-- C20, amended: in a store whose intervention keys are distinct and below the
id counter (every store reached from the empty one is such a store), an
intervention whose status is 'completed' is stored unchanged (same status, task
and `completed_at`) after every check-in, every mark-complete and every assign
that does not carry the id of that intervention as its `intervention_id`. -/
theorem completed_stays_completed (m : Memory) (hk : KeysFresh m) (r : Request)
    (i : Intervention) (hget : mapGet Intervention.id m.interventions i.id = some i)
    (hc : i.status = "completed")
    (hn : ¬ (r.valid = true ∧ namesIntervention i.id r = true)) :
    mapGet Intervention.id (step m r).interventions i.id = some i :=
  mapGet_step_of_completed hk r i hget hc hn

/-- Witness of the amended C20: the completed intervention 1 of "s1" after an
assign without `intervention_id`. -/
theorem completed_stays_completed_witness :
    KeysFresh storeOneCompleted ∧
    mapGet Intervention.id storeOneCompleted.interventions 1
      = some ⟨1, "s1", none, "completed", 11, some 21⟩ ∧
    mapGet Intervention.id
      (step storeOneCompleted
        (.assign ⟨40, 41, .notConfigured⟩ ⟨"s1", none, "A"⟩)).interventions 1
      = some ⟨1, "s1", none, "completed", 11, some 21⟩ :=
  ⟨keysFresh_reachable (reactivatingRequests.take 3), by decide,
   completed_stays_completed storeOneCompleted
     (keysFresh_reachable (reactivatingRequests.take 3))
     (.assign ⟨40, 41, .notConfigured⟩ ⟨"s1", none, "A"⟩)
     ⟨1, "s1", none, "completed", 11, some 21⟩ (by decide) rfl (by decide)⟩

/-- C13 at failing inputs: the memory branch and the SQL branch of the store
operations differ.  On the store that holds the pending intervention 1 of "s1",
`assignInterventionTask` without `intervention_id` rewrites intervention 1 in
the memory branch and inserts a second row in the SQL branch.  With the unused
id 7 the memory branch rewrites intervention 1 and the SQL branch changes
nothing and returns no row.  On the store with two active interventions of "s1"
`createOrGetPendingIntervention` returns intervention 1 in the memory branch and
intervention 2 in the SQL branch, and `completeActiveIntervention` completes one
row in the memory branch and both in the SQL branch.  `updateStudentStatus` of an
unknown student adds the student in the memory branch only. -/
theorem memory_and_sql_branches_differ :
    storeOnePending.interventions = [⟨1, "s1", none, "pending", 11, none⟩] ∧
    (assignInterventionTask storeOnePending "s1" none "T" 21).1.interventions
      = [⟨1, "s1", some "T", "assigned", 11, none⟩] ∧
    (sqlAssignInterventionTask storeOnePending "s1" none "T" 21).1.interventions
      = [⟨1, "s1", none, "pending", 11, none⟩, ⟨2, "s1", some "T", "assigned", 21, none⟩] ∧
    (assignInterventionTask storeOnePending "s1" (some 7) "T" 21)
      = ({ storeOnePending with
            interventions := [⟨1, "s1", some "T", "assigned", 11, none⟩] },
         ⟨1, "s1", some "T", "assigned", 11, none⟩) ∧
    sqlAssignInterventionTask storeOnePending "s1" (some 7) "T" 21
      = (storeOnePending, none) ∧
    (createOrGetPendingIntervention storeTwoActive "s1" 70).2.id = 1 ∧
    (sqlCreateOrGetPendingIntervention storeTwoActive "s1" 70).2.id = 2 ∧
    activeCount (completeActiveIntervention storeTwoActive "s1" 70).1 "s1" = 1 ∧
    activeCount (sqlCompleteActiveIntervention storeTwoActive "s1" 70).1 "s1" = 0 ∧
    (updateStudentStatus Memory.empty "s1" "Remedial").students = [⟨"s1", "Remedial"⟩] ∧
    (sqlUpdateStudentStatus Memory.empty "s1" "Remedial").students = [] := by
  decide

/-- C17 at a failing input: two simultaneous failing check-ins of the unseen
student "s1" on the empty tables of the SQL branch, taking turns at their
queries, so that both run the SELECT of `createOrGetPendingIntervention` before
either runs its INSERT.  Both requests get through and the table holds two
pending rows of "s1".  Under the same schedule the memory branch leaves one
row. -/
theorem sql_checkin_race_two_rows :
    (interleave sqlCheckinStep Memory.empty
      [⟨⟨10, 11, .notConfigured⟩, "s1", .finite 5, .finite 30, 0, none⟩,
       ⟨⟨20, 21, .notConfigured⟩, "s1", .finite 5, .finite 30, 0, none⟩]
      raceSchedule).1.interventions
      = [⟨1, "s1", none, "pending", 11, none⟩, ⟨2, "s1", none, "pending", 21, none⟩] ∧
    ((interleave sqlCheckinStep Memory.empty
      [⟨⟨10, 11, .notConfigured⟩, "s1", .finite 5, .finite 30, 0, none⟩,
       ⟨⟨20, 21, .notConfigured⟩, "s1", .finite 5, .finite 30, 0, none⟩]
      raceSchedule).2.map SqlCheckinThread.pc) = [5, 5] ∧
    (interleave checkinStep Memory.empty
      [⟨⟨10, 11, .notConfigured⟩, "s1", .finite 5, .finite 30, 0⟩,
       ⟨⟨20, 21, .notConfigured⟩, "s1", .finite 5, .finite 30, 0⟩]
      raceSchedule).1.interventions
      = [⟨1, "s1", none, "pending", 11, none⟩] ∧
    ((interleave checkinStep Memory.empty
      [⟨⟨10, 11, .notConfigured⟩, "s1", .finite 5, .finite 30, 0⟩,
       ⟨⟨20, 21, .notConfigured⟩, "s1", .finite 5, .finite 30, 0⟩]
      raceSchedule).2.map CheckinThread.pc) = [4, 4] := by
  decide

end InterventionSystem
